import Mathlib

/-!
Verification of the browser-automation agent orchestrator backend.

Shallow embedding of the Python sources under `src/backend/src/browser_agent/`:
Python dictionaries and JSON-like values are modelled by `PyVal` (association
lists for dictionaries, preserving insertion order, as Python dicts do);
fallible code returns `Except`/`Option`; the asynchronous generators of the
agent loop are modelled as pure functions from an oracle script of
environment responses to the list of emitted events plus the final state.
-/

/-- JSON-like Python value: strings, integers, booleans, `None`, lists and
(insertion-ordered) dictionaries.  Used for tool arguments and tool results. -/
inductive PyVal where
  | str (s : String)
  | int (n : Int)
  | bool (b : Bool)
  | none
  | list (xs : List PyVal)
  | dict (kvs : List (String × PyVal))
deriving Repr

/-- Python dictionary lookup `d.get(k)` on an association list (first match). -/
def pyGet (kvs : List (String × PyVal)) (k : String) : Option PyVal :=
  match kvs with
  | [] => Option.none
  | (k', v) :: rest => if k' = k then Option.some v else pyGet rest k

/-- Python `d.get(k, default)`. -/
def pyGetD (kvs : List (String × PyVal)) (k : String) (dflt : PyVal) : PyVal :=
  (pyGet kvs k).getD dflt

/-- Python dictionary assignment `d[k] = v`: overwrite in place if the key is
present (keeping its position), otherwise append at the end. -/
def pySet (kvs : List (String × PyVal)) (k : String) (v : PyVal) : List (String × PyVal) :=
  match kvs with
  | [] => [(k, v)]
  | (k', v') :: rest => if k' = k then (k, v) :: rest else (k', v') :: pySet rest k v

/-- Python truthiness of a `PyVal` (`bool(v)`). -/
def pyTruthy : PyVal → Bool
  | .str s => !s.data.isEmpty
  | .int n => n ≠ 0
  | .bool b => b
  | .none => false
  | .list xs => !xs.isEmpty
  | .dict kvs => !kvs.isEmpty

/-- Whether a `PyVal` is a dictionary (`isinstance(v, dict)`). -/
def PyVal.isDict : PyVal → Bool
  | .dict _ => true
  | _ => false

/-- Python whitespace for `str.strip()`. -/
def isPySpace (c : Char) : Bool :=
  c = ' ' ∨ c = '\t' ∨ c = '\n' ∨ c = '\r' ∨ c = '\x0b' ∨ c = '\x0c'

/-- Python `str.strip()`: remove leading and trailing whitespace. -/
def pyStrip (s : String) : String :=
  ⟨(s.data.dropWhile isPySpace).reverse.dropWhile isPySpace |>.reverse⟩

/-- Python `str.upper()` on ASCII text (character-wise upper-casing). -/
def pyUpper (s : String) : String :=
  ⟨s.data.map Char.toUpper⟩

/-- Python `str.lower()` on ASCII text (character-wise lower-casing). -/
def pyLower (s : String) : String :=
  ⟨s.data.map Char.toLower⟩

/-- Python substring test `needle in hay`. -/
def strContains (hay needle : String) : Bool :=
  decide (needle.data <:+: hay.data)

/-! ## ToolExecutor (`tools/executor.py`) -/

/-- The keys of `ToolExecutor._tool_handlers`, in insertion order
(`executor.py`, lines 32-76). -/
def toolHandlerNames : List String :=
  ["navigate", "go_back", "go_forward", "reload",
   "click", "click_text", "click_nth", "double_click", "hover",
   "dismiss_overlays", "extract_modal_content", "find_and_click",
   "fill", "type_text", "press_key", "select_option", "check", "uncheck",
   "scroll", "scroll_to_element",
   "wait_for_element", "wait",
   "extract_text", "extract_attribute", "extract_all_text",
   "count_elements", "is_visible",
   "get_page_info", "get_page_structure", "screenshot"]

/-- Python `", ".join(xs)`. -/
def joinComma : List String → String
  | [] => ""
  | [x] => x
  | x :: rest => x ++ ", " ++ joinComma rest

/-- Outcome of invoking one tool handler: either a result dictionary or a
raised exception with its message and class name. -/
inductive HandlerOutcome where
  | ok (res : List (String × PyVal))
  | exn (msg excType : String)

/-- `ToolExecutor.execute`'s coercion of non-dict parameters to `{}`
(`executor.py`, lines 126-128). -/
def coerceParams : PyVal → List (String × PyVal)
  | .dict kvs => kvs
  | _ => []

/-- The result returned for an unknown tool name (`executor.py`, lines 118-123). -/
def unknownToolResult (toolName : String) : List (String × PyVal) :=
  [("success", .bool false),
   ("error", .str ("Unknown tool: " ++ toolName ++ ". Available tools: " ++
     joinComma toolHandlerNames))]

/-- `ToolExecutor.execute(tool_name, parameters)` (`executor.py`, lines 105-145).
The behaviour of the individual handlers (which drive the browser) is the
environment and is passed in as `beh`. -/
def executeTool (beh : String → List (String × PyVal) → HandlerOutcome)
    (toolName : String) (parameters : PyVal) : List (String × PyVal) :=
  if toolHandlerNames.contains toolName then
    match beh toolName (coerceParams parameters) with
    | .ok res => pySet res "tool" (.str toolName)
    | .exn msg ty =>
        [("success", .bool false), ("tool", .str toolName),
         ("error", .str msg), ("error_type", .str ty)]
  else
    unknownToolResult toolName

/-- A concrete handler-behaviour environment used to witness the executor
theorems: `click` succeeds, every other handler raises. -/
def behW : String → List (String × PyVal) → HandlerOutcome := fun n _ =>
  if n = "click" then .ok [("success", .bool true)] else .exn "boom" "RuntimeError"

/-! ## Code generation (`services/codegen.py`, `models/codegen.py`) -/

/-- `TestStep` (`models/codegen.py`): one step of a test plan. -/
structure TestStep where
  action : String
  selector : Option String := Option.none
  value : Option String := Option.none
  expected : Option String := Option.none
deriving Repr, DecidableEq

/-- Output languages (`models/agent.py`, `Language`). -/
inductive LanguageF where
  | typescript
  | python
  | javascript
deriving Repr, DecidableEq

/-- The apostrophe character. -/
def apoChar : Char := Char.ofNat 39

/-- The backslash character. -/
def bsChar : Char := Char.ofNat 92

/-- The double-quote character. -/
def dqChar : Char := Char.ofNat 34

/-- Python `s.replace(c, rep)` for a single-character pattern. -/
def replaceChar (s : String) (c : Char) (rep : String) : String :=
  ⟨s.data.foldr (fun ch acc => if ch = c then rep.data ++ acc else ch :: acc) []⟩

/-- The `escape` helper of `_step_to_typescript`: backslashes doubled first,
then apostrophes escaped. -/
def tsEscape (s : String) : String :=
  replaceChar (replaceChar s bsChar "\x5c\x5c") apoChar "\x5c\x27"

/-- The `escape` helper of `_step_to_python`: backslashes doubled first,
then double quotes escaped. -/
def pyCodeEscape (s : String) : String :=
  replaceChar (replaceChar s bsChar "\x5c\x5c") dqChar "\x5c\x22"

/-- Python `sep.join(xs)`. -/
def pyJoin (sep : String) : List String → String
  | [] => ""
  | [x] => x
  | x :: rest => x ++ sep ++ pyJoin sep rest

/-- Python `int(s)` on a digit string. -/
def charsToNat (s : String) : Nat :=
  s.data.foldl (fun acc c => acc * 10 + (c.toNat - 48)) 0

/-- Python `s.isdigit()` on ASCII text. -/
def pyIsDigit (s : String) : Bool :=
  !s.data.isEmpty && s.data.all Char.isDigit

/-- Python `s.split(sep, 1)` for a single-character separator, in a context
where the separator is known to occur: text before the first occurrence and
text after it. -/
def pySplit1 (s : String) (c : Char) : String × String :=
  (⟨s.data.takeWhile (· ≠ c)⟩, ⟨(s.data.dropWhile (· ≠ c)).drop 1⟩)

/-- Truthiness of an optional Python string (`None` and `""` are falsy). -/
def optTruthy : Option String → Bool
  | Option.none => false
  | Option.some s => !s.data.isEmpty

/-- `CodeGenService._step_to_typescript` (`codegen.py`, lines 146-208). -/
def stepToTypescript (step : TestStep) : String :=
  let action := pyLower step.action
  let selector := if optTruthy step.selector then tsEscape (step.selector.getD "") else ""
  let value := if optTruthy step.value then tsEscape (step.value.getD "") else ""
  if action = "navigate" then
    "await page.goto(\x27" ++ value ++ "\x27);"
  else if action = "click" then
    "await page.click(\x27" ++ selector ++ "\x27);"
  else if action = "click_text" then
    "await page.getByText(\x27" ++ value ++ "\x27).click();"
  else if action = "click_nth" then
    let index := if optTruthy step.value then step.value.getD "" else "0"
    "await page.locator(\x27" ++ selector ++ "\x27).nth(" ++ index ++ ").click();"
  else if action = "double_click" then
    "await page.dblclick(\x27" ++ selector ++ "\x27);"
  else if action = "fill" then
    "await page.fill(\x27" ++ selector ++ "\x27, \x27" ++ value ++ "\x27);"
  else if action = "type" then
    "await page.type(\x27" ++ selector ++ "\x27, \x27" ++ value ++ "\x27);"
  else if action = "press" then
    if selector ≠ "" then
      "await page.press(\x27" ++ selector ++ "\x27, \x27" ++ value ++ "\x27);"
    else
      "await page.keyboard.press(\x27" ++ value ++ "\x27);"
  else if action = "hover" then
    "await page.hover(\x27" ++ selector ++ "\x27);"
  else if action = "select" then
    "await page.selectOption(\x27" ++ selector ++ "\x27, \x27" ++ value ++ "\x27);"
  else if action = "check" then
    "await page.check(\x27" ++ selector ++ "\x27);"
  else if action = "uncheck" then
    "await page.uncheck(\x27" ++ selector ++ "\x27);"
  else if action = "scroll" then
    if value ≠ "" ∧ strContains value ":" then
      let (direction, amtS) := pySplit1 value ':'
      let amount : Nat := if pyIsDigit amtS then charsToNat amtS else 500
      if direction = "up" then
        "await page.mouse.wheel(0, -" ++ toString amount ++ ");"
      else
        "await page.mouse.wheel(0, " ++ toString amount ++ ");"
    else
      "await page.mouse.wheel(0, 500);"
  else if action = "scroll_to" then
    "await page.locator(\x27" ++ selector ++ "\x27).scrollIntoViewIfNeeded();"
  else if action = "wait" then
    let timeout := if value ≠ "" ∧ pyIsDigit value then value else "1000"
    "await page.waitForTimeout(" ++ timeout ++ ");"
  else if action = "wait_for" then
    if step.expected = Option.some "visible" then
      "await page.locator(\x27" ++ selector ++ "\x27).waitFor(\x7b state: \x27visible\x27 \x7d);"
    else
      "await page.waitForSelector(\x27" ++ selector ++ "\x27);"
  else if action = "assert" ∨ action = "expect" then
    if optTruthy step.expected then
      "await expect(page.locator(\x27" ++ selector ++ "\x27)).toContainText(\x27" ++
        tsEscape (step.expected.getD "") ++ "\x27);"
    else
      "await expect(page.locator(\x27" ++ selector ++ "\x27)).toBeVisible();"
  else
    "// Unknown action: " ++ action

/-- `CodeGenService._step_to_python` (`codegen.py`, lines 210-272). -/
def stepToPython (step : TestStep) : String :=
  let action := pyLower step.action
  let selector := if optTruthy step.selector then pyCodeEscape (step.selector.getD "") else ""
  let value := if optTruthy step.value then pyCodeEscape (step.value.getD "") else ""
  if action = "navigate" then
    "page.goto(\x22" ++ value ++ "\x22)"
  else if action = "click" then
    "page.click(\x22" ++ selector ++ "\x22)"
  else if action = "click_text" then
    "page.get_by_text(\x22" ++ value ++ "\x22).click()"
  else if action = "click_nth" then
    let index := if optTruthy step.value then step.value.getD "" else "0"
    "page.locator(\x22" ++ selector ++ "\x22).nth(" ++ index ++ ").click()"
  else if action = "double_click" then
    "page.dblclick(\x22" ++ selector ++ "\x22)"
  else if action = "fill" then
    "page.fill(\x22" ++ selector ++ "\x22, \x22" ++ value ++ "\x22)"
  else if action = "type" then
    "page.type(\x22" ++ selector ++ "\x22, \x22" ++ value ++ "\x22)"
  else if action = "press" then
    if selector ≠ "" then
      "page.press(\x22" ++ selector ++ "\x22, \x22" ++ value ++ "\x22)"
    else
      "page.keyboard.press(\x22" ++ value ++ "\x22)"
  else if action = "hover" then
    "page.hover(\x22" ++ selector ++ "\x22)"
  else if action = "select" then
    "page.select_option(\x22" ++ selector ++ "\x22, \x22" ++ value ++ "\x22)"
  else if action = "check" then
    "page.check(\x22" ++ selector ++ "\x22)"
  else if action = "uncheck" then
    "page.uncheck(\x22" ++ selector ++ "\x22)"
  else if action = "scroll" then
    if value ≠ "" ∧ strContains value ":" then
      let (direction, amtS) := pySplit1 value ':'
      let amount : Nat := if pyIsDigit amtS then charsToNat amtS else 500
      if direction = "up" then
        "page.mouse.wheel(0, -" ++ toString amount ++ ")"
      else
        "page.mouse.wheel(0, " ++ toString amount ++ ")"
    else
      "page.mouse.wheel(0, 500)"
  else if action = "scroll_to" then
    "page.locator(\x22" ++ selector ++ "\x22).scroll_into_view_if_needed()"
  else if action = "wait" then
    let timeout := if value ≠ "" ∧ pyIsDigit value then value else "1000"
    "page.wait_for_timeout(" ++ timeout ++ ")"
  else if action = "wait_for" then
    if step.expected = Option.some "visible" then
      "page.locator(\x22" ++ selector ++ "\x22).wait_for(state=\x22visible\x22)"
    else
      "page.wait_for_selector(\x22" ++ selector ++ "\x22)"
  else if action = "assert" ∨ action = "expect" then
    if optTruthy step.expected then
      "expect(page.locator(\x22" ++ selector ++ "\x22)).to_contain_text(\x22" ++
        pyCodeEscape (step.expected.getD "") ++ "\x22)"
    else
      "expect(page.locator(\x22" ++ selector ++ "\x22)).to_be_visible()"
  else
    "# Unknown action: " ++ action

/-- `CodeGenService._generate_typescript` (`codegen.py`, lines 100-113). -/
def generateTypescript (plan : List TestStep) : String :=
  let stepsStr := pyJoin "\n  " (plan.map stepToTypescript)
  "import \x7b test, expect \x7d from \x27@playwright/test\x27;\n\n" ++
    "test(\x27generated test\x27, async (\x7b page \x7d) => \x7b\n  " ++ stepsStr ++ "\n\x7d);\n"

/-- `CodeGenService._generate_python` (`codegen.py`, lines 115-129). -/
def generatePython (plan : List TestStep) : String :=
  let stepsStr := pyJoin "\n    " (plan.map stepToPython)
  "import pytest\nfrom playwright.sync_api import Page, expect\n\n" ++
    "def test_generated(page: Page):\n    \x22\x22\x22Generated Playwright test.\x22\x22\x22\n    " ++
    stepsStr ++ "\n"

/-- `CodeGenService._generate_javascript` (`codegen.py`, lines 131-144);
steps are rendered by `_step_to_typescript` (line 277). -/
def generateJavascript (plan : List TestStep) : String :=
  let stepsStr := pyJoin "\n  " (plan.map stepToTypescript)
  "const \x7b test, expect \x7d = require(\x27@playwright/test\x27);\n\n" ++
    "test(\x27generated test\x27, async (\x7b page \x7d) => \x7b\n  " ++ stepsStr ++ "\n\x7d);\n"

/-- `CodeGenService._generate_inline` (`codegen.py`, lines 83-98).  The
repository ships no `templates/` directory, so `_generate_code` always takes
this inline path. -/
def generateInline (plan : List TestStep) (lang : LanguageF) : String :=
  match lang with
  | .typescript => generateTypescript plan
  | .python => generatePython plan
  | .javascript => generateJavascript plan

/-- `re.sub(r'^https?://', '', url)` in `_generate_filename`. -/
def stripProtocol (url : String) : String :=
  if List.isPrefixOf "https://".data url.data then ⟨url.data.drop 8⟩
  else if List.isPrefixOf "http://".data url.data then ⟨url.data.drop 7⟩
  else url

/-- `url.split('/')[0].split('.')[0]` in `_generate_filename`. -/
def firstLabel (url : String) : String :=
  ⟨(url.data.takeWhile (· ≠ '/')).takeWhile (· ≠ '.')⟩

/-- The name-search loop of `_generate_filename` (`codegen.py`, lines
282-293): first navigate step with a truthy value whose first host label is
truthy and not `"www"`; `"generated"` when the loop finds none. -/
def filenameBase : List TestStep → String
  | [] => "generated"
  | step :: rest =>
      if pyLower step.action = "navigate" ∧ optTruthy step.value then
        if firstLabel (stripProtocol (step.value.getD "")) ≠ "" ∧
            firstLabel (stripProtocol (step.value.getD "")) ≠ "www" then
          firstLabel (stripProtocol (step.value.getD ""))
        else filenameBase rest
      else filenameBase rest

/-- `re.sub(r'[^a-zA-Z0-9]', '-', name)`. -/
def mapNonAlnum (s : String) : String :=
  ⟨s.data.map (fun c => if c.isAlpha ∨ c.isDigit then c else '-')⟩

/-- `re.sub(r'-+', '-', name)`: collapse runs of dashes. -/
def collapseDashes (s : String) : String :=
  ⟨go Option.none s.data⟩
where
  go : Option Char → List Char → List Char
    | _, [] => []
    | prev, c :: rest =>
        if c = '-' ∧ prev = Option.some '-' then go prev rest
        else c :: go (Option.some c) rest

/-- Python `s.strip('-')`. -/
def stripDashes (s : String) : String :=
  ⟨(s.data.dropWhile (· = '-')).reverse.dropWhile (· = '-') |>.reverse⟩

/-- The language-specific filename extensions (`codegen.py`, lines 300-304). -/
def extFor : LanguageF → String
  | .typescript => ".spec.ts"
  | .python => "_test.py"
  | .javascript => ".spec.js"

/-- `CodeGenService._generate_filename` (`codegen.py`, lines 279-306). -/
def generateFilename (plan : List TestStep) (lang : LanguageF) : String :=
  "test-" ++ stripDashes (collapseDashes (mapNonAlnum (pyLower (filenameBase plan)))) ++
    extFor lang

/-- `CodeGenService.generate` (`codegen.py`, lines 44-56), specialised to the
shipped repository state (no `templates/` directory, hence inline
generation); the only framework is `playwright`. -/
def codeGenGenerate (plan : List TestStep) (lang : LanguageF) : String × String :=
  (generateInline plan lang, generateFilename plan lang)

/-- The concrete test plan of the code-generation scenario:
`[{navigate, https://x.test}, {click, button#go}]`. -/
def codegenPlanX : List TestStep :=
  [{ action := "navigate", value := Option.some "https://x.test" },
   { action := "click", selector := Option.some "button#go" }]

/-- A test plan whose first navigate URL has first host label `"www"`,
followed by a second navigate. -/
def codegenPlanWww : List TestStep :=
  [{ action := "navigate", value := Option.some "https://www.foo.com" },
   { action := "navigate", value := Option.some "https://bar.com" }]

/-! ## History → TestStep conversion (`core/agent.py`, `_history_to_test_steps`) -/

/-- `AgentStep` (`core/agent.py`, lines 202-212): record of a single agent
step.  The wall-clock `timestamp` field is omitted (never read by the code). -/
structure AgentStep where
  stepNumber : Nat
  toolName : Option String
  toolArgs : Option (List (String × PyVal))
  toolResult : Option (List (String × PyVal))
  llmResponse : Option String
  screenshot : Option String := Option.none
  error : Option String := Option.none

/-- `non_actionable_tools` (`core/agent.py`, lines 734-738). -/
def nonActionableTools : List String :=
  ["screenshot", "get_page_structure", "extract_text",
   "extract_all_text", "get_page_info", "get_element_text",
   "is_visible", "count_elements", "extract_attribute"]

/-- `tool_to_action` (`core/agent.py`, lines 741-759). -/
def toolToActionList : List (String × String) :=
  [("navigate", "navigate"), ("click", "click"), ("click_text", "click_text"),
   ("click_nth", "click_nth"), ("find_and_click", "click_text"),
   ("fill", "fill"), ("type_text", "type"), ("press_key", "press"),
   ("hover", "hover"), ("select_option", "select"), ("check", "check"),
   ("uncheck", "uncheck"), ("scroll", "scroll"),
   ("scroll_to_element", "scroll_to"), ("wait", "wait"),
   ("wait_for_element", "wait_for"), ("double_click", "double_click")]

/-- `tool_to_action.get(name)`. -/
def toolToAction (t : String) : Option String :=
  (toolToActionList.find? (fun p => p.1 = t)).map (fun p => p.2)

/-- `args.get(k)` restricted to string values (the tool arguments recorded in
the history carry strings in these positions). -/
def argStr (args : List (String × PyVal)) (k : String) : Option String :=
  match pyGet args k with
  | Option.some (.str s) => Option.some s
  | _ => Option.none

/-- Python `str(v)` for the scalar values this code applies it to
(`str(args.get('index', 0))`, `f"{direction}:{amount}"`, …). -/
def pyStr : PyVal → String
  | .str s => s
  | .int n => toString n
  | .bool b => if b then "True" else "False"
  | .none => "None"
  | .list _ => "[...]"
  | .dict _ => "\x7b...\x7d"

/-- Python `a.get('x') or a.get('y')` on optional strings (`""` is falsy). -/
def pyOrStr (a b : Option String) : Option String :=
  if optTruthy a then a else b

/-- `f"{action}:{selector}:{value}"` rendering of an optional string
(`None` prints as `"None"`). -/
def showOptPy : Option String → String
  | Option.none => "None"
  | Option.some s => s

/-- The selector/value extraction of `_history_to_test_steps`
(`core/agent.py`, lines 783-814), keyed on the tool name. -/
def extractSelVal (toolName : String) (args : List (String × PyVal)) :
    Option String × Option String :=
  let selector := argStr args "selector"
  if toolName = "navigate" then
    (Option.none, argStr args "url")
  else if toolName = "fill" then
    (selector, argStr args "value")
  else if toolName = "type_text" then
    (selector, argStr args "text")
  else if toolName = "press_key" then
    (selector, argStr args "key")
  else if toolName = "click_text" ∨ toolName = "find_and_click" then
    (Option.none, pyOrStr (argStr args "text") (argStr args "target"))
  else if toolName = "click_nth" then
    (selector, Option.some (pyStr (pyGetD args "index" (.int 0))))
  else if toolName = "select_option" then
    (selector, pyOrStr (argStr args "value") (argStr args "label"))
  else if toolName = "scroll" then
    let direction := pyStr (pyGetD args "direction" (.str "down"))
    let amount := pyStr (pyGetD args "amount" (.int 500))
    (Option.none, Option.some (direction ++ ":" ++ amount))
  else if toolName = "wait" then
    (Option.none, Option.some (pyStr (pyGetD args "timeout" (.int 1000))))
  else
    (selector, Option.none)

/-- The deduplication key `f"{action}:{selector}:{value}"` of a test step. -/
def keyOfTestStep (ts : TestStep) : String :=
  ts.action ++ ":" ++ showOptPy ts.selector ++ ":" ++ showOptPy ts.value

/-- The per-history-step body of `_history_to_test_steps` (lines 767-814):
`none` when the step is skipped (truthy error, falsy or non-actionable or
unmapped tool), otherwise the derived test step. -/
def histCandidate (step : AgentStep) : Option TestStep :=
  if optTruthy step.error then Option.none
  else if !(optTruthy step.toolName) ∨ nonActionableTools.contains (step.toolName.getD "") then
    Option.none
  else
    match toolToAction (step.toolName.getD "") with
    | Option.none => Option.none
    | Option.some action =>
        let args := step.toolArgs.getD []
        let (selector, value) := extractSelVal (step.toolName.getD "") args
        Option.some { action := action, selector := selector, value := value }

/-- The dedup loop of `_history_to_test_steps` (lines 816-826): emit each
candidate whose key is not in `seen_actions`. -/
def histDedupGo : List AgentStep → List String → List TestStep
  | [], _ => []
  | step :: rest, seen =>
      match histCandidate step with
      | Option.none => histDedupGo rest seen
      | Option.some ts =>
          if seen.contains (keyOfTestStep ts) then histDedupGo rest seen
          else ts :: histDedupGo rest (keyOfTestStep ts :: seen)

/-- `Agent._history_to_test_steps(url)` (`core/agent.py`, lines 722-828). -/
def historyToTestSteps (history : List AgentStep) (url : String) : List TestStep :=
  { action := "navigate", value := Option.some url } :: histDedupGo history []

/-- Whether consecutive elements of a test-step list never share a dedup key. -/
def consecDupFree : List TestStep → Bool
  | [] => true
  | [_] => true
  | a :: b :: r => (keyOfTestStep a != keyOfTestStep b) && consecDupFree (b :: r)

/-- A one-step history whose single entry is a successful navigate back to
the starting URL. -/
def histNavDup : List AgentStep :=
  [{ stepNumber := 1, toolName := Option.some "navigate",
     toolArgs := Option.some [("url", .str "https://x.test")],
     toolResult := Option.some [("success", .bool true)],
     llmResponse := Option.none }]

/-- A history step that failed (truthy error), for witnessing the skip
behaviour of the history transform. -/
def errStepW : AgentStep :=
  { stepNumber := 1, toolName := Option.some "click",
    toolArgs := Option.some [("selector", .str "#b")],
    toolResult := Option.some [("success", .bool false)],
    llmResponse := Option.none, error := Option.some "timeout" }

/-- An observation-only history step (`screenshot`), for witnessing the skip
behaviour of the history transform. -/
def obsStepW : AgentStep :=
  { stepNumber := 2, toolName := Option.some "screenshot",
    toolArgs := Option.some [], toolResult := Option.some [("success", .bool true)],
    llmResponse := Option.none }

/-! ## AgentService (`services/agent.py`) and the request model (`models/agent.py`) -/

/-- LLM providers (`models/agent.py`, `LLMProvider`). -/
inductive ProviderF where
  | gemini
  | perplexity
  | huggingface
deriving Repr, DecidableEq

/-- `AgentRequest` (`models/agent.py`, lines 33-118): the Pydantic request
model, with its defaults.  `framework` is omitted because `Framework` has the
single member `playwright`. -/
structure AgentRequest where
  apiKey : Option String := Option.none
  provider : ProviderF
  url : String
  task : String
  language : LanguageF := .typescript
  headless : Bool := true
  useBoostPrompt : Bool := true
  useStructuredExecution : Bool := false
  verifyEachStep : Bool := true

/-- The attribute names declared by the `AgentRequest` Pydantic model
(`models/agent.py`, lines 42-102); attribute access on any other name raises
`AttributeError`. -/
def agentRequestFields : List String :=
  ["api_key", "provider", "url", "task", "framework", "language", "headless",
   "use_boost_prompt", "use_structured_execution", "verify_each_step"]

/-- The field names of the `AgentConfig` dataclass (`core/agent.py`, lines
182-199); its generated `__init__` raises `TypeError` on any other keyword. -/
def agentConfigFields : List String :=
  ["max_steps", "timeout", "screenshot_on_step", "headless", "viewport_width",
   "viewport_height", "framework", "language", "use_boost_prompt", "temperature",
   "use_structured_execution", "verify_each_step"]

/-- The parameter names of `Agent.run` besides `self` (`core/agent.py`,
lines 385-389); calling it with any other keyword raises `TypeError`. -/
def agentRunParams : List String := ["task", "url"]

/-- Event types of the service-level `AgentEvent` (`models/agent.py`,
`EventType`). -/
inductive EventTypeF where
  | log
  | screenshot
  | code
  | error
  | complete
deriving Repr, DecidableEq

/-- Service-level `AgentEvent` (`models/agent.py`, lines 131-153); the
wall-clock timestamp is omitted. -/
structure AgentEventF where
  type : EventTypeF
  message : Option String := Option.none
  screenshot : Option String := Option.none
  code : Option String := Option.none
deriving Repr, DecidableEq

/-- How `AgentService.run` terminates: normally, or by an exception escaping
the generator. -/
inductive ServiceOutcome where
  | finished
  | raised (excType attr : String)
deriving Repr, DecidableEq

/-- `AgentService.run(request, api_key, session)` (`services/agent.py`,
lines 29-122): the events it yields, how it terminates, and whether an
`Agent` was ever constructed (line 93).

`create_llm_client` (lines 57-61) constructs the provider client without
raising for every declared provider (no I/O happens at construction), so the
`except` of lines 62-68 is not taken.  Line 73 then evaluates
`request.url_username`, which is not a field of the Pydantic model: Python
raises `AttributeError` there, outside any enclosing `try`.  The remaining
branches model the further keyword mismatches the code would hit if the
earlier name did resolve (`http_credentials` on `AgentConfig` at line 89,
`session` on `Agent.run` at line 96 — the latter inside the `try` of line 95,
hence converted to an error event). -/
def agentServiceRun (req : AgentRequest) (apiKey : Option String) :
    List AgentEventF × ServiceOutcome × Bool :=
  let resolvedKey := if optTruthy apiKey then apiKey else req.apiKey
  if optTruthy resolvedKey = false then
    ([{ type := .error,
        message := Option.some
          "API key is required. Provide via X-API-Key header or apiKey in request body." }],
     .finished, false)
  else if !(agentRequestFields.contains "url_username") then
    ([], .raised "AttributeError" "url_username", false)
  else if !(agentRequestFields.contains "url_password") then
    ([], .raised "AttributeError" "url_password", false)
  else if !(agentConfigFields.contains "http_credentials") then
    ([], .raised "TypeError" "http_credentials", false)
  else if !(agentRunParams.contains "session") then
    ([{ type := .error,
        message := Option.some "Agent execution error: unexpected keyword argument" }],
     .finished, true)
  else
    ([], .finished, true)

/-- A concrete well-formed request used in the service counterexample. -/
def reqW : AgentRequest :=
  { provider := .perplexity, url := "https://example.com", task := "click login" }

/-! ## Retry policy (`llm/retry.py`) and Perplexity HTTP error mapping
(`llm/perplexity.py`, `chat`, lines 72-113) -/

/-- A raised Python exception: class name and message. -/
structure PyExn where
  excType : String
  msg : String
deriving Repr, DecidableEq

/-- `RETRYABLE_EXCEPTIONS` (`retry.py`, lines 22-28): httpx timeouts, network
and connect errors, and `HTTPStatusError` (raised by `raise_for_status`). -/
def retryableExn (e : PyExn) : Bool :=
  ["TimeoutException", "NetworkError", "ConnectError", "ReadTimeout",
   "HTTPStatusError"].contains e.excType

/-- Outcome of the single HTTP POST inside one `chat` attempt. -/
inductive HttpOutcome where
  | timeout
  | connectError
  | status (code : Nat) (errMsg : String)
deriving Repr, DecidableEq

/-- The 401 message of `chat` (`perplexity.py`, line 105). -/
def msg401 : String :=
  "Invalid Perplexity API key. Please provide a valid key from https://www.perplexity.ai/settings/api"

/-- The 403 message of `chat` (line 107). -/
def msg403 : String := "Perplexity API key does not have access. Check your subscription."

/-- The 429 message of `chat` (line 109). -/
def msg429 : String := "Perplexity rate limit exceeded. Please wait and try again."

/-- One attempt of `PerplexityClient.chat` (`perplexity.py`, lines 97-111):
network failures raise httpx exceptions; 400/401/403/429 are converted to
`ValueError` before `raise_for_status`; any other error status (404, 5xx, …)
raises `HTTPStatusError`; otherwise the attempt succeeds. -/
def chatAttempt : HttpOutcome → Except PyExn Unit
  | .timeout => .error ⟨"TimeoutException", "timed out"⟩
  | .connectError => .error ⟨"ConnectError", "connection failed"⟩
  | .status code errMsg =>
      if code = 400 then .error ⟨"ValueError", "Perplexity API error: " ++ errMsg⟩
      else if code = 401 then .error ⟨"ValueError", msg401⟩
      else if code = 403 then .error ⟨"ValueError", msg403⟩
      else if code = 429 then .error ⟨"ValueError", msg429⟩
      else if 400 ≤ code then .error ⟨"HTTPStatusError", "HTTP status " ++ toString code⟩
      else .ok ()

/-- The tenacity loop produced by `with_retry` (`retry.py`, lines 31-58):
`stop_after_attempt(max_attempts)`, `retry_if_exception_type(RETRYABLE)`,
`reraise=True`.  `env n` is the outcome of the n-th attempt; the result pairs
the final outcome with the number of attempts made.  The waits between
attempts (`wait_exponential(multiplier=1, min=min_wait, max=max_wait)`) are
real time and not modelled. -/
def retryRun (maxAttempts : Nat) (env : Nat → Except PyExn Unit) :
    Except PyExn Unit × Nat :=
  go maxAttempts 1
where
  go : Nat → Nat → Except PyExn Unit × Nat
    | 0, n => (env n, n)
    | fuel + 1, n =>
        match env n with
        | .ok v => (.ok v, n)
        | .error e =>
            if retryableExn e ∧ n < maxAttempts then go fuel (n + 1)
            else (.error e, n)

/-- `PerplexityClient.chat` as decorated by
`@with_retry(max_attempts=3, min_wait=1, max_wait=10)` (`perplexity.py`,
line 72), driven by an oracle giving each attempt's HTTP outcome. -/
def perplexityChatRetried (oracle : Nat → HttpOutcome) : Except PyExn Unit × Nat :=
  retryRun 3 (fun n => chatAttempt (oracle n))

/-- An environment in which every attempt receives HTTP 429. -/
def oracle429 : Nat → HttpOutcome := fun _ => .status 429 "Too Many Requests"

/-- An environment in which every attempt times out. -/
def oracleTimeout : Nat → HttpOutcome := fun _ => .timeout

/-! ## Perplexity message conversion (`llm/perplexity.py`, lines 149-332) -/

/-- A provider-format message dictionary `{"role": r, "content": c}`. -/
structure DMsg where
  role : String
  content : String
deriving Repr, DecidableEq

/-- `"assistant" if expected_role == "user" else "user"`. -/
def roleToggle (e : String) : String :=
  if e = "user" then "assistant" else "user"

/-- Whether a role sequence strictly alternates starting from expected role
`e` (`user`/`assistant` alternation). -/
def altFrom : String → List DMsg → Bool
  | _, [] => true
  | e, m :: rest => (m.role == e) && altFrom (roleToggle e) rest

/-- The expected role after consuming a message list starting from `e`. -/
def expAfter : String → List DMsg → String
  | e, [] => e
  | e, _ :: rest => expAfter (roleToggle e) rest

/-- The conversation loop of `_enforce_alternation` (`perplexity.py`, lines
266-291), with the result accumulated in reverse (Python appends and mutates
`result[-1]`; the accumulator head is `result[-1]`). -/
def alternLoop : List DMsg → List DMsg → String → List DMsg
  | [], acc, _ => acc.reverse
  | msg :: rest, acc, expected =>
      if msg.role = expected then
        alternLoop rest (msg :: acc) (if expected = "user" then "assistant" else "user")
      else
        match acc with
        | prev :: accTail =>
            if prev.role = msg.role then
              alternLoop rest
                ({ role := prev.role, content := prev.content ++ "\n\n" ++ msg.content } :: accTail)
                expected
            else
              let acc' :=
                if expected = "user" ∧ msg.role = "assistant" then
                  msg :: { role := "user", content := "Acknowledged. Continue." } :: acc
                else if expected = "assistant" ∧ msg.role = "user" then
                  msg :: { role := "assistant", content := "Understood." } :: acc
                else msg :: acc
              alternLoop rest acc' (if msg.role = "user" then "assistant" else "user")
        | [] =>
            if msg.role = "assistant" then
              alternLoop rest
                [msg, { role := "user", content := "Continue with the task." }] "user"
            else
              alternLoop rest [] expected

/-- Lines 293-295 of `_enforce_alternation`: append a user message when the
conversation would otherwise end with the assistant. -/
def ensureEndsUser (result : List DMsg) : List DMsg :=
  match result.getLast? with
  | Option.some lastMsg =>
      if lastMsg.role = "assistant" then
        result ++ [{ role := "user", content := "Please continue with the next action." }]
      else result
  | Option.none => result

/-- `PerplexityClient._enforce_alternation` (`perplexity.py`, lines 247-297). -/
def enforceAlternation (messages : List DMsg) : List DMsg :=
  if messages.isEmpty then messages
  else
    let systemMsgs := messages.filter (fun m => m.role = "system")
    let convMsgs := messages.filter (fun m => m.role ≠ "system")
    if convMsgs.isEmpty then systemMsgs
    else systemMsgs ++ ensureEndsUser (alternLoop convMsgs [] "user")

/-- `ToolCall` (`llm/base.py`, lines 8-13). -/
structure ToolCallF where
  id : String
  name : String
  arguments : List (String × PyVal)
deriving Repr

/-- `LLMMessage` (`llm/base.py`, lines 23-31); `images` is omitted (never
read on the Perplexity paths). -/
structure LLMMessageF where
  role : String
  content : Option String := Option.none
  toolCalls : Option (List ToolCallF) := Option.none
  toolCallId : Option String := Option.none
  name : Option String := Option.none
deriving Repr

/-- Hexadecimal digit character. -/
def hexDigitChar (n : Nat) : Char :=
  if n < 10 then Char.ofNat (48 + n) else Char.ofNat (87 + n)

/-- Four-digit hexadecimal rendering for backslash-u escapes. -/
def hex4 (n : Nat) : List Char :=
  [hexDigitChar (n / 4096 % 16), hexDigitChar (n / 256 % 16),
   hexDigitChar (n / 16 % 16), hexDigitChar (n % 16)]

/-- `json.dumps` escaping of one character (ASCII payloads). -/
def jsonEscapeChar (c : Char) : List Char :=
  if c = dqChar then [bsChar, dqChar]
  else if c = bsChar then [bsChar, bsChar]
  else if c = '\n' then [bsChar, 'n']
  else if c = '\t' then [bsChar, 't']
  else if c = '\r' then [bsChar, 'r']
  else if c.toNat < 32 then bsChar :: 'u' :: hex4 c.toNat
  else [c]

/-- `json.dumps` rendering of a string literal. -/
def jsonStrLit (s : String) : String :=
  "\x22" ++ ⟨s.data.foldr (fun c acc => jsonEscapeChar c ++ acc) []⟩ ++ "\x22"

mutual

/-- `json.dumps(v)` with the default separators. -/
def jsonDumpsVal : PyVal → String
  | .str s => jsonStrLit s
  | .int n => toString n
  | .bool b => if b then "true" else "false"
  | .none => "null"
  | .list xs => "[" ++ jsonDumpsList xs ++ "]"
  | .dict kvs => "\x7b" ++ jsonDumpsKVs kvs ++ "\x7d"

/-- Comma-joined `json.dumps` of list elements. -/
def jsonDumpsList : List PyVal → String
  | [] => ""
  | [x] => jsonDumpsVal x
  | x :: y :: rest => jsonDumpsVal x ++ ", " ++ jsonDumpsList (y :: rest)

/-- Comma-joined `json.dumps` of dictionary entries. -/
def jsonDumpsKVs : List (String × PyVal) → String
  | [] => ""
  | [(k, v)] => jsonStrLit k ++ ": " ++ jsonDumpsVal v
  | (k, v) :: p :: rest => jsonStrLit k ++ ": " ++ jsonDumpsVal v ++ ", " ++ jsonDumpsKVs (p :: rest)

end

/-- Code-point lexicographic `<=` on character lists. -/
def charListLe : List Char → List Char → Bool
  | [], _ => true
  | _ :: _, [] => false
  | a :: as, b :: bs =>
      if a.toNat < b.toNat then true
      else if b.toNat < a.toNat then false
      else charListLe as bs

/-- Python string `<=` (code-point lexicographic), on the character lists. -/
def strLe (a b : String) : Bool := charListLe a.data b.data

/-- Insertion into a key-sorted association list. -/
def insertKV (x : String × PyVal) : List (String × PyVal) → List (String × PyVal)
  | [] => [x]
  | y :: r => if strLe x.1 y.1 then x :: y :: r else y :: insertKV x r

/-- Stable ascending sort of dictionary entries by key (`sort_keys=True`). -/
def sortKVs (kvs : List (String × PyVal)) : List (String × PyVal) :=
  kvs.foldr insertKV []

mutual

/-- Recursively sort every dictionary of a value by key. -/
def canonVal : PyVal → PyVal
  | .list xs => .list (canonList xs)
  | .dict kvs => .dict (sortKVs (canonKVs kvs))
  | .str s => .str s
  | .int n => .int n
  | .bool b => .bool b
  | .none => .none

/-- `canonVal` on list elements. -/
def canonList : List PyVal → List PyVal
  | [] => []
  | x :: r => canonVal x :: canonList r

/-- `canonVal` on dictionary values. -/
def canonKVs : List (String × PyVal) → List (String × PyVal)
  | [] => []
  | (k, v) :: r => (k, canonVal v) :: canonKVs r

end

/-- `json.dumps(args, sort_keys=True)` of an arguments dictionary. -/
def jsonDumpsCanon (kvs : List (String × PyVal)) : String :=
  jsonDumpsVal (canonVal (.dict kvs))

/-- `MAX_INPUT_TOKENS` (`perplexity.py`, line 18). -/
def MAX_INPUT_TOKENS : Nat := 80000

/-- `CHARS_PER_TOKEN` (line 19). -/
def CHARS_PER_TOKEN : Nat := 4

/-- `MAX_TOOL_RESULT_CHARS` (line 20). -/
def MAX_TOOL_RESULT_CHARS : Nat := 15000

/-- `MAX_CONTENT_CHARS` (line 21). -/
def MAX_CONTENT_CHARS : Nat := 20000

/-- `len(s)` in characters. -/
def strLen (s : String) : Nat := s.data.length

/-- `estimate_tokens` (`perplexity.py`, lines 24-26). -/
def estTokens (text : String) : Nat := strLen text / CHARS_PER_TOKEN

/-- Python `s[:k]`, including the negative-index case. -/
def pySliceTo (s : String) (k : Int) : String :=
  if 0 ≤ k then ⟨s.data.take k.toNat⟩
  else ⟨s.data.take (s.data.length - k.natAbs)⟩

/-- `truncate_to_tokens` (`perplexity.py`, lines 29-34); `max_tokens` may be
negative when called from `_truncate_conversation` with a huge system part. -/
def truncToTokens (text : String) (maxTokens : Int) : String :=
  let maxChars : Int := maxTokens * (CHARS_PER_TOKEN : Int)
  if (strLen text : Int) ≤ maxChars then text
  else pySliceTo text maxChars ++ "\n... [truncated due to length]"

/-- The `TOOL_CALL:`/`ARGUMENTS:` lines rendered into an assistant message
carrying tool calls (`perplexity.py`, lines 191-193). -/
def toolCallText : List ToolCallF → String
  | [] => ""
  | tc :: rest =>
      "TOOL_CALL: " ++ tc.name ++ "\nARGUMENTS: " ++
        jsonDumpsVal (.dict tc.arguments) ++ "\n" ++ toolCallText rest

/-- The role loop of `_convert_messages` (`perplexity.py`, lines 156-224):
per-message truncation, collection and flushing of pending tool results, and
rendering of assistant tool calls.  `pending` models
`pending_tool_results`, in order. -/
def convertStage1 : List LLMMessageF → List String → List DMsg
  | [], pending =>
      if pending.isEmpty then [] else [⟨"user", pyJoin "\n\n" pending⟩]
  | msg :: rest, pending =>
      let content0 := msg.content.getD ""
      let content :=
        if MAX_CONTENT_CHARS < strLen content0 then
          truncToTokens content0 ((MAX_CONTENT_CHARS / CHARS_PER_TOKEN : Nat) : Int)
        else content0
      if msg.role = "system" then
        ⟨"system", content⟩ :: convertStage1 rest pending
      else if msg.role = "tool" then
        let toolContent0 := msg.content.getD ""
        let toolContent :=
          if MAX_TOOL_RESULT_CHARS < strLen toolContent0 then
            truncToTokens toolContent0 ((MAX_TOOL_RESULT_CHARS / CHARS_PER_TOKEN : Nat) : Int)
          else toolContent0
        convertStage1 rest
          (pending ++ ["Tool \x27" ++ showOptPy msg.name ++ "\x27: " ++ toolContent])
      else if msg.role = "assistant" then
        let flush : List DMsg :=
          if pending.isEmpty then [] else [⟨"user", pyJoin "\n\n" pending⟩]
        let amsg : DMsg :=
          match msg.toolCalls with
          | Option.some tcs =>
              if tcs.isEmpty then ⟨"assistant", content⟩
              else ⟨"assistant",
                (if content ≠ "" then content ++ "\n\n" else content) ++
                  "Using tools:\n" ++ toolCallText tcs⟩
          | Option.none => ⟨"assistant", content⟩
        flush ++ amsg :: convertStage1 rest []
      else if msg.role = "user" then
        if pending.isEmpty then ⟨"user", content⟩ :: convertStage1 rest []
        else ⟨"user", pyJoin "\n\n" pending ++ "\n\n" ++ content⟩ :: convertStage1 rest []
      else
        convertStage1 rest pending

/-- The same-role merge loop of `_convert_messages` (lines 227-233), with the
output accumulated in reverse (the accumulator head is `final[-1]`). -/
def mergeGo : List DMsg → List DMsg → List DMsg
  | [], acc => acc.reverse
  | m :: rest, acc =>
      match acc with
      | prev :: tail =>
          if prev.role = m.role ∧ m.role ≠ "system" then
            mergeGo rest (⟨prev.role, prev.content ++ "\n\n" ++ m.content⟩ :: tail)
          else mergeGo rest (m :: acc)
      | [] => mergeGo rest [m]

/-- Lines 227-233 of `_convert_messages`: merge consecutive same-role
non-system messages. -/
def mergeSameRole (converted : List DMsg) : List DMsg := mergeGo converted []

/-- The keep-from-the-end walk of `_truncate_conversation` (lines 316-330):
consing onto `kept` while walking the reversed conversation reproduces
Python's `kept_msgs.insert(0, msg)`. -/
def truncKeepGo (available : Int) : List DMsg → Int → List DMsg → List DMsg
  | [], _, kept => kept
  | msg :: rest, current, kept =>
      let t : Int := (estTokens msg.content : Int)
      if current + t ≤ available then truncKeepGo available rest (current + t) (msg :: kept)
      else if 10000 < t ∧ kept = [] then
        ⟨msg.role, truncToTokens msg.content (available - 1000)⟩ :: kept
      else kept

/-- `PerplexityClient._truncate_conversation` (`perplexity.py`, lines 299-332). -/
def truncateConversation (messages : List DMsg) (maxTokens : Nat) : List DMsg :=
  if messages.isEmpty then messages
  else
    let systemMsgs := messages.filter (fun m => m.role = "system")
    let convMsgs := messages.filter (fun m => m.role ≠ "system")
    let systemTokens : Nat := (systemMsgs.map (fun m => estTokens m.content)).sum
    let available : Int := (maxTokens : Int) - (systemTokens : Int) - 5000
    systemMsgs ++ truncKeepGo available convMsgs.reverse 0 []

/-- `PerplexityClient._convert_messages` (`perplexity.py`, lines 149-245):
the role loop, the merge pass, `_enforce_alternation`, and the final
whole-conversation cap check. -/
def convertMessages (messages : List LLMMessageF) : List DMsg :=
  let final := enforceAlternation (mergeSameRole (convertStage1 messages []))
  let totalChars := (final.map (fun m => strLen m.content)).sum
  if MAX_INPUT_TOKENS * CHARS_PER_TOKEN < totalChars then
    truncateConversation final MAX_INPUT_TOKENS
  else final

/-- An alternating user/assistant conversation of `2 k + 1` messages whose
contents are all `"abc"` (3 characters, hence 0 estimated tokens each). -/
def altMsgsC6 : Nat → List LLMMessageF
  | 0 => [{ role := "user", content := Option.some "abc" }]
  | k + 1 =>
      { role := "user", content := Option.some "abc" } ::
      { role := "assistant", content := Option.some "abc" } :: altMsgsC6 k

/-- The provider-format image of `altMsgsC6`. -/
def altD : Nat → List DMsg
  | 0 => [⟨"user", "abc"⟩]
  | k + 1 => ⟨"user", "abc"⟩ :: ⟨"assistant", "abc"⟩ :: altD k

/-- Total estimated tokens of a prepared message list. -/
def tokSum (l : List DMsg) : Nat :=
  (l.map (fun m => estTokens m.content)).sum

/-- The image of a system message under the per-message truncation of
`_convert_messages` (lines 162-170). -/
def sysTruncMsg (m : LLMMessageF) : DMsg :=
  let c := m.content.getD ""
  ⟨"system", if MAX_CONTENT_CHARS < strLen c then
      truncToTokens c ((MAX_CONTENT_CHARS / CHARS_PER_TOKEN : Nat) : Int)
    else c⟩

/-- A concrete mixed conversation with one system message, used to witness the
token-budget theorem. -/
def budgetMsgsW : List LLMMessageF :=
  [{ role := "system", content := Option.some "sys" },
   { role := "user", content := Option.some "hello" },
   { role := "assistant", content := Option.some "thinking",
     toolCalls := Option.some [⟨"id1", "click", [("selector", .str "#a")]⟩] },
   { role := "tool", content := Option.some "clicked ok", name := Option.some "click" },
   { role := "user", content := Option.some "next" }]

/-! ## The agent run loop (`core/agent.py`, lines 481-705) -/

mutual

/-- Python `repr` of values as interpolated into f-strings for dict arguments
(`f"Executing: {tool_call.name}({tool_call.arguments})"`); escaping of quotes
inside strings is not modelled (the payloads in scope are quote-free). -/
def pyReprVal : PyVal → String
  | .str s => "\x27" ++ s ++ "\x27"
  | .int n => toString n
  | .bool b => if b then "True" else "False"
  | .none => "None"
  | .list xs => "[" ++ pyReprList xs ++ "]"
  | .dict kvs => "\x7b" ++ pyReprKVs kvs ++ "\x7d"

def pyReprList : List PyVal → String
  | [] => ""
  | [v] => pyReprVal v
  | v :: rest => pyReprVal v ++ ", " ++ pyReprList rest

def pyReprKVs : List (String × PyVal) → String
  | [] => ""
  | [(k, v)] => "\x27" ++ k ++ "\x27: " ++ pyReprVal v
  | (k, v) :: rest => "\x27" ++ k ++ "\x27: " ++ pyReprVal v ++ ", " ++ pyReprKVs rest

end

/-- `TaskStep` (`core/agent.py`, lines 49-57), a decomposed structured step;
`attempts`/`max_attempts` are never read in the run loop and are omitted. -/
structure TaskStepA where
  number : Nat
  action : String
  target : String
  value : Option String := Option.none
  completed : Bool := false
deriving Repr

/-- The environment of one tool execution: the handler behaviour driving
`ToolExecutor.execute` and the outcome of the follow-up screenshot attempt
(`Except.ok` carries `ss_result.get("screenshot")`). -/
structure ToolEnv where
  beh : String → List (String × PyVal) → HandlerOutcome
  shot : Except String (Option String)

/-- The fallback environment when the script supplies fewer entries than the
turn executes (never exercised by the witnesses). -/
def defaultToolEnv : ToolEnv :=
  ⟨fun _ _ => HandlerOutcome.exn "no environment" "EnvError",
   Except.error "no environment"⟩

/-- One turn of the LLM environment: `self.llm.chat` either raises or returns
a response with optional content and tool calls; `execs` supplies the
browser environment for the turn's tool executions, in order. -/
inductive TurnIn where
  | llmErr (msg : String)
  | resp (content : Option String) (toolCalls : Option (List ToolCallF))
      (execs : List ToolEnv)

/-- The events yielded by `Agent.run` (the dicts keyed by `type`). -/
inductive AgEvent where
  | log (message : String)
  | screenshot (data : Option String)
  | tool (tool : String) (args : List (String × PyVal))
  | code (code : String)
  | complete (message : String) (steps : Nat)
  | error (message : String)

/-- The agent's mutable state across loop iterations. -/
structure AgentState where
  messages : List LLMMessageF
  history : List AgentStep
  stuckCount : Nat
  lastToolKey : Option String
  taskSteps : List TaskStepA
  currentStepIndex : Nat
  stepCount : Nat
  taskComplete : Bool

/-- The dedup key `f"{tc.name}:{json.dumps(tc.arguments, sort_keys=True)}"`
(`core/agent.py`, lines 509 and 517). -/
def toolKey (tc : ToolCallF) : String :=
  tc.name ++ ":" ++ jsonDumpsCanon tc.arguments

/-- The tool-call dedup loop (`core/agent.py`, lines 506-513). -/
def dedupToolCallsGo : List ToolCallF → List String → List ToolCallF
  | [], _ => []
  | tc :: rest, seen =>
      if seen.contains (toolKey tc) then dedupToolCallsGo rest seen
      else tc :: dedupToolCallsGo rest (toolKey tc :: seen)

/-- `unique_tool_calls` computed from `response.tool_calls`. -/
def dedupToolCalls (tcs : List ToolCallF) : List ToolCallF :=
  dedupToolCallsGo tcs []

/-- `Agent._prune_messages` (`core/agent.py`, lines 320-335). -/
def pruneMessages (msgs : List LLMMessageF) (maxMessages : Nat) : List LLMMessageF :=
  if msgs.length ≤ maxMessages + 1 then msgs
  else
    let systemMsgs := msgs.filter (fun m => m.role = "system")
    let otherMsgs := msgs.filter (fun m => m.role ≠ "system")
    systemMsgs ++ otherMsgs.drop (otherMsgs.length - maxMessages)

/-- `action_to_tools.get(action, [action])` (`core/agent.py`, lines 349-364). -/
def actionToTools (action : String) : List String :=
  if action = "click" then ["click", "click_text", "click_nth", "find_and_click"]
  else if action = "fill" then ["fill", "type_text"]
  else if action = "type" then ["fill", "type_text"]
  else if action = "scroll" then ["scroll", "scroll_to_element"]
  else if action = "wait" then ["wait", "wait_for_element"]
  else if action = "navigate" then ["navigate"]
  else if action = "press" then ["press_key"]
  else if action = "hover" then ["hover"]
  else if action = "select" then ["select_option"]
  else if action = "check" then ["check"]
  else if action = "uncheck" then ["uncheck"]
  else [action]

/-- `Agent._tool_matches_step` (`core/agent.py`, lines 337-383); the
`value`/`text` argument values of the matched tools are strings. -/
def toolMatchesStep (toolName : String) (toolArgs : List (String × PyVal))
    (step : TaskStepA) : Bool :=
  let action := pyLower step.action
  let validTools := actionToTools action
  if ¬ validTools.contains toolName then false
  else
    let fillOk : Bool :=
      if (action = "fill" ∨ action = "type") ∧ optTruthy step.value then
        let a := (argStr toolArgs "value").getD ""
        let toolValue := if a ≠ "" then a else (argStr toolArgs "text").getD ""
        let sv := pyLower (step.value.getD "")
        let tv := pyLower toolValue
        strContains tv sv || strContains sv tv
      else true
    if ¬ fillOk then false
    else
      let textOk : Bool :=
        if toolName = "click_text" ∧ step.target ≠ "" then
          let tt := pyLower ((argStr toolArgs "text").getD "")
          let tg := pyLower step.target
          strContains tt tg || strContains tg tt
        else true
      if ¬ textOk then false else true

/-- `Agent._summarize_result` (`core/agent.py`, lines 707-720). -/
def summarizeResult (result : List (String × PyVal)) : String :=
  if (pyGet result "url").isSome then
    "URL: " ++ pyStr (pyGetD result "url" PyVal.none)
  else if (pyGet result "text").isSome then
    let t := pyGetD result "text" PyVal.none
    let text := if pyTruthy t then pyStr t else ""
    if 100 < strLen text then "Text: " ++ pySliceTo text 100 ++ "..."
    else "Text: " ++ text
  else if (pyGet result "count").isSome then
    "Count: " ++ pyStr (pyGetD result "count" PyVal.none)
  else if (pyGet result "visible").isSome then
    "Visible: " ++ pyStr (pyGetD result "visible" PyVal.none)
  else if (pyGet result "screenshot").isSome then "Screenshot captured"
  else pyStr (pyGetD result "action" (PyVal.str "Done"))

/-- Python `s.startswith(p)` as a character-list prefix test. -/
def strStartsWith (s p : String) : Bool := p.data.isPrefixOf s.data

/-- The strict completion test on the stripped upper-cased content
(`core/agent.py`, lines 642-646). -/
def isTaskCompleteStr (cs : String) : Bool :=
  (cs == "TASK_COMPLETE") ||
    (strStartsWith cs "TASK_COMPLETE" && decide (strLen cs < 50))

/-- `actionable_tools` (`core/agent.py`, line 650). -/
def actionableToolsA : List String :=
  ["click", "fill", "submit", "press_key", "check", "select_option"]

/-- One conjunct of `has_actionable_steps` (`core/agent.py`, lines 651-654):
`step.tool_name in actionable_tools and not step.error`. -/
def actionableStep (step : AgentStep) : Bool :=
  (match step.toolName with
   | Option.some t => actionableToolsA.contains t
   | Option.none => false) && !(optTruthy step.error)

/-- The tools that trigger a follow-up screenshot (`core/agent.py`, line 595). -/
def shotTools : List String :=
  ["navigate", "click", "fill", "scroll", "click_text", "find_and_click"]

/-- `format_tool_result` (`llm/base.py`, lines 102-119). -/
def formatToolResult (toolCallId name : String)
    (result : List (String × PyVal)) : LLMMessageF :=
  { role := "tool", content := Option.some (jsonDumpsVal (PyVal.dict result)),
    toolCallId := Option.some toolCallId, name := Option.some name }

/-- The body of the per-tool-call loop (`core/agent.py`, lines 542-621):
yield the tool and executing events, run the executor, record the step,
handle success (structured-step tracking, screenshots) or failure, append
the tool-result message, and prune. -/
def execOneTool (content : Option String) (tc : ToolCallF) (env : ToolEnv)
    (st : AgentState) : List AgEvent × AgentState :=
  let evHead := [AgEvent.tool tc.name tc.arguments,
    AgEvent.log ("Executing: " ++ tc.name ++ "(" ++
      pyReprVal (PyVal.dict tc.arguments) ++ ")")]
  let result := executeTool env.beh tc.name (PyVal.dict tc.arguments)
  let step0 : AgentStep :=
    { stepNumber := st.stepCount, toolName := Option.some tc.name,
      toolArgs := Option.some tc.arguments, toolResult := Option.some result,
      llmResponse := content }
  if pyTruthy (pyGetD result "success" PyVal.none) then
    let ev1 := [AgEvent.log ("Result: Success - " ++ summarizeResult result)]
    let (ev2, st2) :=
      if ¬ st.taskSteps.isEmpty ∧ st.currentStepIndex < st.taskSteps.length then
        let cur := st.taskSteps.getD st.currentStepIndex ⟨0, "", "", Option.none, false⟩
        if toolMatchesStep tc.name tc.arguments cur then
          let steps2 := st.taskSteps.set st.currentStepIndex { cur with completed := true }
          let idx2 := st.currentStepIndex + 1
          let remaining := steps2.length - idx2
          let ev := [AgEvent.log ("✅ Step " ++ toString cur.number ++
            " completed. " ++ toString remaining ++ " steps remaining.")]
          if 0 < remaining then
            let next := steps2.getD idx2 ⟨0, "", "", Option.none, false⟩
            let progressTxt :=
              "Step " ++ toString cur.number ++ " completed. Now execute STEP " ++
                toString next.number ++ ": " ++ next.action ++ " - " ++ next.target ++
                (if optTruthy next.value then " - \"" ++ next.value.getD "" ++ "\"" else "")
            let progressMsg : LLMMessageF := { role := "user", content := Option.some progressTxt }
            (ev, { st with taskSteps := steps2, currentStepIndex := idx2, messages := st.messages ++ [progressMsg] })
          else (ev, { st with taskSteps := steps2, currentStepIndex := idx2 })
        else ([], st)
      else ([], st)
    let (ev3, stepA) :=
      if shotTools.contains tc.name then
        match env.shot with
        | Except.ok os => ([AgEvent.screenshot os], { step0 with screenshot := os })
        | Except.error e => ([AgEvent.log ("Screenshot failed: " ++ e)], step0)
      else ([], step0)
    let newMsgs := pruneMessages (st2.messages ++ [formatToolResult tc.id tc.name result]) 12
    (evHead ++ ev1 ++ ev2 ++ ev3, { st2 with history := st2.history ++ [stepA], messages := newMsgs })
  else
    let err := pyGetD result "error" (PyVal.str "Unknown error")
    let stepA := { step0 with error := Option.some (pyStr err) }
    let newMsgs := pruneMessages (st.messages ++ [formatToolResult tc.id tc.name result]) 12
    (evHead ++ [AgEvent.log ("Result: Failed - " ++ pyStr err)],
     { st with history := st.history ++ [stepA], messages := newMsgs })

/-- The `for tool_call in unique_tool_calls` loop, consuming the turn's
execution environments in order. -/
def execTools (content : Option String) :
    List ToolCallF → List ToolEnv → AgentState → List AgEvent × AgentState
  | [], _, st => ([], st)
  | tc :: rest, envs, st =>
      let (evs1, st1) := execOneTool content tc (envs.headD defaultToolEnv) st
      let (evs2, st2) := execTools content rest envs.tail st1
      (evs1 ++ evs2, st2)

/-- The assistant message carrying the unique tool calls plus the execution
loop (`core/agent.py`, lines 536-621). -/
def runCalls (content : Option String) (unique : List ToolCallF)
    (execs : List ToolEnv) (st : AgentState) : List AgEvent × AgentState :=
  execTools content unique execs
    { st with messages := st.messages ++
        [{ role := "assistant", content := content, toolCalls := Option.some unique }] }

/-- The stuck-recovery log message (`core/agent.py`, line 522). -/
def recoveryMsg : String := "⚠️ Agent repeating same action - attempting recovery"

/-- The corrective user message appended on stuck recovery
(`core/agent.py`, lines 523-526). -/
def correctiveMsg : String :=
  "You are repeating the same action. This isn\x27t working. Try a DIFFERENT approach or use a different tool/selector."

/-- The tool-calls branch of a loop turn (`core/agent.py`, lines 503-621):
stuck-counter reset, dedup, repeated-call detection (with the `continue`
recovery path), and the execution loop. -/
def processToolTurn (content : Option String) (tcs : List ToolCallF)
    (execs : List ToolEnv) (st0 : AgentState) : List AgEvent × AgentState :=
  let st1 := { st0 with stuckCount := 0 }
  let unique := dedupToolCalls tcs
  match unique with
  | [tc] =>
      let ck := toolKey tc
      if st1.lastToolKey = Option.some ck then
        let st2 := { st1 with stuckCount := st1.stuckCount + 1 }
        if 3 ≤ st2.stuckCount then
          ([AgEvent.log recoveryMsg],
           { st2 with
             messages := st2.messages ++
               [{ role := "user", content := Option.some correctiveMsg }],
             stuckCount := 0, lastToolKey := Option.none })
        else runCalls content unique execs { st2 with lastToolKey := Option.some ck }
      else
        runCalls content unique execs
          { st1 with stuckCount := 0, lastToolKey := Option.some ck }
  | _ => runCalls content unique execs st1

/-- The not-completed corrective user message (`core/agent.py`, lines 664-667). -/
def notCompletedMsg : String :=
  "You have NOT completed the task yet. You only searched/viewed but didn\x27t perform the actual action (e.g., clicking \x27Add to Cart\x27, submitting form, etc.). Continue with the task!"

/-- The mixed-completion rejection user message (`core/agent.py`, lines 670-673). -/
def mixedMsg : String :=
  "Do not mix TASK_COMPLETE with analysis. If task is done, respond ONLY with \x27TASK_COMPLETE\x27. If not done, continue executing actions."

/-- The continuation prompt (`core/agent.py`, lines 678-681). -/
def continueMsg : String := "Continue executing the task. What is the next action?"

/-- The no-tool-calls branch of a loop turn (`core/agent.py`, lines 622-683):
stuck counting, the completion check with its actionable-steps guard, and
the continuation prompt. The Bool result is the `break` flag. -/
def processNoToolTurn (content : Option String) (st0 : AgentState) :
    List AgEvent × AgentState × Bool :=
  let st := { st0 with stuckCount := st0.stuckCount + 1, lastToolKey := Option.none }
  if 5 ≤ st.stuckCount then
    ([AgEvent.error "Agent appears stuck - no tool calls for 5 consecutive turns"],
     st, true)
  else
    let stA := { st with messages := st.messages ++
      [{ role := "assistant", content := content }] }
    let (ev1, st1) :=
      if optTruthy content then
        let cs := pyUpper (pyStrip (content.getD ""))
        if isTaskCompleteStr cs then
          if stA.history.any actionableStep then
            ([AgEvent.log "Agent marked task as complete"],
             { stA with taskComplete := true })
          else
            ([AgEvent.log "Agent tried to complete but no actionable steps performed - continuing"],
             { stA with messages := stA.messages ++ [{ role := "user", content := Option.some notCompletedMsg }] })
        else if strContains cs "TASK_COMPLETE" then
          ([AgEvent.log "Task completion rejected - mixed with other content, continuing"],
           { stA with messages := stA.messages ++ [{ role := "user", content := Option.some mixedMsg }] })
        else ([], stA)
      else ([], stA)
    let st2 :=
      if ¬ st1.taskComplete ∧
         (¬ optTruthy content ∨
          ¬ strContains (pyUpper (content.getD "")) "TASK_COMPLETE") then
        { st1 with messages := st1.messages ++ [{ role := "user", content := Option.some continueMsg }] }
      else st1
    (ev1, st2, false)

/-- One iteration of the main loop after the step banner (`core/agent.py`,
lines 488-683): the LLM call (raising breaks the loop), the content log, and
the tool/no-tool branches. The Bool result is the `break` flag. -/
def processTurn (turn : TurnIn) (st : AgentState) : List AgEvent × AgentState × Bool :=
  match turn with
  | TurnIn.llmErr msg => ([AgEvent.error ("LLM error: " ++ msg)], st, true)
  | TurnIn.resp content toolCalls execs =>
      let ev0 :=
        if optTruthy content then
          [AgEvent.log ("Agent: " ++ pySliceTo (content.getD "") 500)]
        else []
      match toolCalls with
      | Option.some tcs =>
          if tcs.isEmpty then
            let (evs, st2, brk) := processNoToolTurn content st
            (ev0 ++ evs, st2, brk)
          else
            let (evs, st2) := processToolTurn content tcs execs st
            (ev0 ++ evs, st2, false)
      | Option.none =>
          let (evs, st2, brk) := processNoToolTurn content st
          (ev0 ++ evs, st2, brk)

/-- The `while` loop of `Agent.run` (`core/agent.py`, lines 485-686), driven
by the script `script n` giving the LLM environment of the `n`-th turn
(0-based); the fuel bounds the remaining iterations and never truncates when
it starts at `maxSteps`, since each iteration increments `stepCount`. -/
def agentLoopGo (script : Nat → TurnIn) (maxSteps : Nat) :
    Nat → AgentState → List AgEvent × AgentState
  | 0, st => ([], st)
  | fuel + 1, st =>
      if st.stepCount < maxSteps ∧ ¬ st.taskComplete then
        let st1 := { st with stepCount := st.stepCount + 1 }
        let ev0 := [AgEvent.log ("--- Step " ++ toString st1.stepCount ++ " ---")]
        let out := processTurn (script st.stepCount) st1
        if out.2.2 then (ev0 ++ out.1, out.2.1)
        else
          let rest := agentLoopGo script maxSteps fuel out.2.1
          (ev0 ++ out.1 ++ rest.1, rest.2)
      else ([], st)

/-- `Agent._generate_test_code` (`core/agent.py`, lines 830-884): history to
test steps, the no-steps templates, and the CodeGenService call (framework
playwright). -/
def generateTestCode (history : List AgentStep) (task url : String)
    (lang : LanguageF) : String :=
  let testSteps := historyToTestSteps history url
  if testSteps.isEmpty then
    match lang with
    | LanguageF.python =>
        "import pytest\nfrom playwright.sync_api import Page, expect\n\ndef test_generated(page: Page):\n    \"\"\"Generated test for: " ++ task ++ "\"\"\"\n    page.goto(\"" ++ url ++ "\")\n    # No steps recorded - add your automation code here\n    # Example:\n    # page.click(\"button\")\n    # page.fill(\"input\", \"value\")\n"
    | _ =>
        "import \x7b test, expect \x7d from \x27@playwright/test\x27;\n\ntest(\x27generated test\x27, async (\x7b page \x7d) => \x7b\n  // Task: " ++ task ++ "\n  await page.goto(\x27" ++ url ++ "\x27);\n  // No steps recorded - add your automation code here\n  // Example:\n  // await page.click(\x27button\x27);\n  // await page.fill(\x27input\x27, \x27value\x27);\n\x7d);\n"
  else (codeGenGenerate testSteps lang).1

/-- `Agent.run` from the top of the `while` loop to the end (`core/agent.py`,
lines 485-705): the loop events, the generated-code event, the final
completion event, and the `finally` browser-closed log. The initialization
phase (browser launch, navigation, decomposition, conversation setup) is
summarized by the initial state. -/
def agentRunLoop (script : Nat → TurnIn) (maxSteps : Nat) (lang : LanguageF)
    (task url : String) (st0 : AgentState) : List AgEvent × AgentState :=
  let out := agentLoopGo script maxSteps maxSteps st0
  let stF := out.2
  let code := generateTestCode stF.history task url lang
  let fin :=
    if stF.taskComplete then
      [AgEvent.complete "Task completed successfully" stF.stepCount]
    else if maxSteps ≤ stF.stepCount then
      [AgEvent.complete ("Reached maximum steps (" ++ toString maxSteps ++ ")")
        stF.stepCount]
    else [AgEvent.complete "Agent stopped" stF.stepCount]
  (out.1 ++ [AgEvent.code code] ++ fin ++ [AgEvent.log "Browser closed"], stF)

/-- The loop-entry state (`core/agent.py`, lines 468-484): conversation
initialized, empty history, counters zero. -/
def initAgentState (initMsgs : List LLMMessageF) (taskSteps : List TaskStepA) :
    AgentState :=
  { messages := initMsgs, history := [], stuckCount := 0,
    lastToolKey := Option.none, taskSteps := taskSteps,
    currentStepIndex := 0, stepCount := 0, taskComplete := false }

/-- Recognizes the successful terminal event. -/
def isCompleteSuccess : AgEvent → Bool
  | AgEvent.complete m _ => m == "Task completed successfully"
  | _ => false

/-- Recognizes the stuck-recovery log event. -/
def isRecoveryLog : AgEvent → Bool
  | AgEvent.log m => m == recoveryMsg
  | _ => false

/-- Recognizes the corrective repeated-action user message. -/
def isCorrectiveMsg (m : LLMMessageF) : Bool :=
  (m.role == "user") && (m.content == Option.some correctiveMsg)

/-- A script turn that is a strict `TASK_COMPLETE` response (the only form
the completion check accepts). -/
def strictCompleteTurn : TurnIn → Bool
  | TurnIn.resp (Option.some c) _ _ => isTaskCompleteStr (pyUpper (pyStrip c))
  | _ => false

/-- A completing two-turn script: one successful click, then a bare
`TASK_COMPLETE` response. -/
def scriptW : Nat → TurnIn := fun n =>
  if n = 0 then
    TurnIn.resp (Option.some "clicking")
      (Option.some [⟨"1", "click", [("selector", PyVal.str "#go")]⟩])
      [⟨behW, Except.ok (Option.some "imgdata")⟩]
  else TurnIn.resp (Option.some "TASK_COMPLETE") Option.none []

/-- A script that returns the identical single `click` tool call every turn. -/
def scriptRep : Nat → TurnIn := fun _ =>
  TurnIn.resp Option.none
    (Option.some [⟨"1", "click", [("selector", PyVal.str "#x")]⟩])
    [⟨behW, Except.ok Option.none⟩]

/-! ## The text-protocol tool-call extractor (`llm/perplexity.py`, lines 442-633) -/

/-- Python regex `\s` over the ASCII range (`[ \t\n\r\f\v]`). -/
def isReSpace (c : Char) : Bool :=
  c = ' ' || c = Char.ofNat 9 || c = Char.ofNat 10 || c = Char.ofNat 13 ||
  c = Char.ofNat 12 || c = Char.ofNat 11

/-- Python regex `\w` over the ASCII range (`[a-zA-Z0-9_]`). -/
def isWordChar (c : Char) : Bool :=
  ('a' ≤ c && c ≤ 'z') || ('A' ≤ c && c ≤ 'Z') || ('0' ≤ c && c ≤ '9') || c = '_'

/-- `[a-zA-Z_]`, the first character of the unquoted-identifier fix. -/
def isIdentStart (c : Char) : Bool :=
  ('a' ≤ c && c ≤ 'z') || ('A' ≤ c && c ≤ 'Z') || c = '_'

/-- ASCII lower-casing, as `re.IGNORECASE` compares letters. -/
def sCharLower (c : Char) : Char :=
  if 'A' ≤ c && c ≤ 'Z' then Char.ofNat (c.toNat + 32) else c

/-- Greedy maximal munch of a character class (a `p*` regex atom). -/
def munch (p : Char → Bool) : List Char → List Char × List Char
  | [] => ([], [])
  | c :: r => if p c then
      let m := munch p r
      (c :: m.1, m.2)
    else ([], c :: r)

/-- Case-insensitive literal-pattern match at the head; returns the rest. -/
def ciPrefix : List Char → List Char → Option (List Char)
  | [], cs => Option.some cs
  | _ :: _, [] => Option.none
  | p :: ps, c :: cs =>
      if sCharLower c = sCharLower p then ciPrefix ps cs else Option.none

/-- JSON whitespace (`json.loads` accepts exactly space, tab, newline, CR). -/
def jsonSkipWs (cs : List Char) : List Char :=
  match cs with
  | c :: r =>
      if c = ' ' || c = Char.ofNat 9 || c = Char.ofNat 10 || c = Char.ofNat 13 then
        jsonSkipWs r
      else cs
  | [] => []

/-- A JSON string-escape character (`\u` escapes are not modelled; they do not
occur in tool arguments). -/
def jsonEscDecode (c : Char) : Option Char :=
  if c = dqChar then Option.some dqChar
  else if c = bsChar then Option.some bsChar
  else if c = '/' then Option.some '/'
  else if c = 'b' then Option.some (Char.ofNat 8)
  else if c = 'f' then Option.some (Char.ofNat 12)
  else if c = 'n' then Option.some (Char.ofNat 10)
  else if c = 'r' then Option.some (Char.ofNat 13)
  else if c = 't' then Option.some (Char.ofNat 9)
  else Option.none

/-- JSON string body after the opening quote; strict mode rejects raw control
characters. -/
def jsonParseStr : List Char → Option (String × List Char)
  | [] => Option.none
  | c :: rest =>
      if c = dqChar then Option.some ("", rest)
      else if c = bsChar then
        match rest with
        | e :: r2 =>
            match jsonEscDecode e with
            | Option.some ec =>
                match jsonParseStr r2 with
                | Option.some (s, r) => Option.some (String.mk (ec :: s.data), r)
                | Option.none => Option.none
            | Option.none => Option.none
        | [] => Option.none
      else if c.toNat < 32 then Option.none
      else
        match jsonParseStr rest with
        | Option.some (s, r) => Option.some (String.mk (c :: s.data), r)
        | Option.none => Option.none

/-- Decimal digit run to a number. -/
def digitsToNat (acc : Nat) : List Char → Nat
  | [] => acc
  | c :: r => digitsToNat (acc * 10 + (c.toNat - 48)) r

/-- JSON number; the grammar is restricted to integers (`.`/`e` continuations
are rejected; floats do not occur in tool arguments). -/
def jsonParseNum (cs : List Char) : Option (PyVal × List Char) :=
  let (neg, cs1) : Bool × List Char :=
    match cs with
    | '-' :: r => (true, r)
    | _ => (false, cs)
  match cs1 with
  | c :: r =>
      if c = '0' then
        match r with
        | d :: _ =>
            if ('0' ≤ d && d ≤ '9') || d = '.' || d = 'e' || d = 'E' then Option.none
            else Option.some (PyVal.int 0, r)
        | [] => Option.some (PyVal.int 0, r)
      else if '1' ≤ c && c ≤ '9' then
        let m := munch (fun x => '0' ≤ x && x ≤ '9') r
        match m.2 with
        | d :: _ =>
            if d = '.' || d = 'e' || d = 'E' then Option.none
            else
              let v : Int := (digitsToNat 0 (c :: m.1) : Nat)
              Option.some (PyVal.int (if neg then -v else v), m.2)
        | [] =>
            let v : Int := (digitsToNat 0 (c :: m.1) : Nat)
            Option.some (PyVal.int (if neg then -v else v), m.2)
      else Option.none
  | [] => Option.none

mutual

/-- `json.loads` value grammar (recursive descent; the fuel is an upper bound
on the nesting depth and never runs out when it starts at the input length). -/
def jsonParseVal : Nat → List Char → Option (PyVal × List Char)
  | 0, _ => Option.none
  | fuel + 1, cs =>
      match jsonSkipWs cs with
      | [] => Option.none
      | c :: rest =>
          if c = dqChar then
            match jsonParseStr rest with
            | Option.some (s, r) => Option.some (PyVal.str s, r)
            | Option.none => Option.none
          else if c = '{' then
            match jsonSkipWs rest with
            | '}' :: r2 => Option.some (PyVal.dict [], r2)
            | r2 => jsonParseMembers fuel r2 []
          else if c = '[' then
            match jsonSkipWs rest with
            | ']' :: r2 => Option.some (PyVal.list [], r2)
            | r2 => jsonParseItems fuel r2 []
          else if c = 't' then
            match rest with
            | 'r' :: 'u' :: 'e' :: r2 => Option.some (PyVal.bool true, r2)
            | _ => Option.none
          else if c = 'f' then
            match rest with
            | 'a' :: 'l' :: 's' :: 'e' :: r2 => Option.some (PyVal.bool false, r2)
            | _ => Option.none
          else if c = 'n' then
            match rest with
            | 'u' :: 'l' :: 'l' :: r2 => Option.some (PyVal.none, r2)
            | _ => Option.none
          else jsonParseNum (c :: rest)

/-- Object members after `{` (the empty object is handled by the caller);
duplicate keys keep the first position with the last value, as a Python dict
does. -/
def jsonParseMembers : Nat → List Char → List (String × PyVal) →
    Option (PyVal × List Char)
  | 0, _, _ => Option.none
  | fuel + 1, cs, acc =>
      match jsonSkipWs cs with
      | c :: rest =>
          if c = dqChar then
            match jsonParseStr rest with
            | Option.some (k, r1) =>
                match jsonSkipWs r1 with
                | ':' :: r2 =>
                    match jsonParseVal fuel r2 with
                    | Option.some (v, r3) =>
                        let acc2 := pySet acc k v
                        match jsonSkipWs r3 with
                        | ',' :: r4 => jsonParseMembers fuel r4 acc2
                        | '}' :: r4 => Option.some (PyVal.dict acc2, r4)
                        | _ => Option.none
                    | Option.none => Option.none
                | _ => Option.none
            | Option.none => Option.none
          else Option.none
      | [] => Option.none

/-- Array items after `[` (the empty array is handled by the caller). -/
def jsonParseItems : Nat → List Char → List PyVal → Option (PyVal × List Char)
  | 0, _, _ => Option.none
  | fuel + 1, cs, acc =>
      match jsonParseVal fuel cs with
      | Option.some (v, r1) =>
          match jsonSkipWs r1 with
          | ',' :: r2 => jsonParseItems fuel r2 (acc ++ [v])
          | ']' :: r2 => Option.some (PyVal.list (acc ++ [v]), r2)
          | _ => Option.none
      | Option.none => Option.none

end

/-- `json.loads`: a full parse with only trailing whitespace allowed. -/
def jsonLoads (s : String) : Option PyVal :=
  match jsonParseVal (s.data.length + 1) s.data with
  | Option.some (v, rest) => if (jsonSkipWs rest).isEmpty then Option.some v else Option.none
  | Option.none => Option.none

/-- `re.sub(r':\s*([a-zA-Z_][a-zA-Z0-9_]*)\s*([,}])', r': "\1"\2', s)` — the
unquoted-identifier-value fix (`_try_fix_json`, first pattern). The fuel is
the input length; each step consumes at least one character. -/
def sub1Go : Nat → List Char → List Char
  | 0, cs => cs
  | fuel + 1, cs =>
      match cs with
      | [] => []
      | c :: rest =>
          if c = ':' then
            let m1 := munch isReSpace rest
            match m1.2 with
            | i :: ri =>
                if isIdentStart i then
                  let m2 := munch isWordChar ri
                  let m3 := munch isReSpace m2.2
                  match m3.2 with
                  | p :: r4 =>
                      if p = ',' || p = '}' then
                        ':' :: ' ' :: dqChar :: (i :: m2.1) ++ dqChar :: p :: sub1Go fuel r4
                      else c :: sub1Go fuel rest
                  | [] => c :: sub1Go fuel rest
                else c :: sub1Go fuel rest
            | [] => c :: sub1Go fuel rest
          else c :: sub1Go fuel rest

/-- `re.sub(r"'([^']*)'", r'"\1"', s)` — the single-quote fix. -/
def sub2Go : Nat → List Char → List Char
  | 0, cs => cs
  | fuel + 1, cs =>
      match cs with
      | [] => []
      | c :: rest =>
          if c = apoChar then
            let m := munch (fun x => x ≠ apoChar) rest
            match m.2 with
            | _ :: r2 => dqChar :: m.1 ++ dqChar :: sub2Go fuel r2
            | [] => c :: sub2Go fuel rest
          else c :: sub2Go fuel rest

/-- `re.sub(r',\s*}', r'}', s)` and `re.sub(r',\s*]', r']', s)` — the
trailing-comma fixes, parameterized by the closer. -/
def sub3Go (closer : Char) : Nat → List Char → List Char
  | 0, cs => cs
  | fuel + 1, cs =>
      match cs with
      | [] => []
      | c :: rest =>
          if c = ',' then
            let m := munch isReSpace rest
            match m.2 with
            | p :: r2 =>
                if p = closer then closer :: sub3Go closer fuel r2
                else c :: sub3Go closer fuel rest
            | [] => c :: sub3Go closer fuel rest
          else c :: sub3Go closer fuel rest

/-- `PerplexityClient._try_fix_json` (`perplexity.py`, lines 493-523): the four
repairs in order, then a reparse. -/
def tryFixJson (jsonStr : String) (endPos : Nat) : Option (PyVal × Nat) :=
  let f1 := sub1Go jsonStr.data.length jsonStr.data
  let f2 := sub2Go f1.length f1
  let f3 := sub3Go '}' f2.length f2
  let f4 := sub3Go ']' f3.length f3
  match jsonLoads (String.mk f4) with
  | Option.some v => Option.some (v, endPos)
  | Option.none => Option.none

/-- Python `text.find(ch, start)`. -/
def findCharFrom (cs : List Char) (ch : Char) (start : Nat) : Option Nat :=
  match (cs.drop start).findIdx? (fun x => x = ch) with
  | Option.some i => Option.some (start + i)
  | Option.none => Option.none

/-- The brace-matching loop of `_extract_json_object` (`perplexity.py`, lines
458-482), started on the suffix whose head is the found `{`; returns the
length of the matched object (one past the closing brace, relatively). -/
def braceLoop : List Char → Int → Bool → Bool → Nat → Option Nat
  | [], _, _, _, _ => Option.none
  | c :: rest, depth, inStr, esc, n =>
      if esc then braceLoop rest depth inStr false (n + 1)
      else if c = bsChar && inStr then braceLoop rest depth inStr true (n + 1)
      else if c = dqChar then braceLoop rest depth (!inStr) false (n + 1)
      else if inStr then braceLoop rest depth inStr false (n + 1)
      else if c = '{' then braceLoop rest (depth + 1) inStr false (n + 1)
      else if c = '}' then
        if depth - 1 = 0 then Option.some (n + 1)
        else braceLoop rest (depth - 1) inStr false (n + 1)
      else braceLoop rest depth inStr false (n + 1)

/-- `PerplexityClient._extract_json_object` (`perplexity.py`, lines 442-490). -/
def extractJsonObject (text : String) (startPos : Nat) : Option (PyVal × Nat) :=
  match findCharFrom text.data '{' startPos with
  | Option.none => Option.none
  | Option.some braceStart =>
      match braceLoop (text.data.drop braceStart) 0 false false 0 with
      | Option.some len =>
          let jsonStr := String.mk ((text.data.drop braceStart).take len)
          match jsonLoads jsonStr with
          | Option.some v => Option.some (v, braceStart + len)
          | Option.none => tryFixJson jsonStr (braceStart + len)
      | Option.none => Option.none

/-- The scanner pattern `TOOL_CALL:` as characters. -/
def tcPat : List Char := "TOOL_CALL:".data

/-- A match of `TOOL_CALL:\s*(\w+)` anchored at the head: the captured name,
the rest, and the consumed length. -/
def matchToolCallAt (cs : List Char) : Option (String × List Char × Nat) :=
  match ciPrefix tcPat cs with
  | Option.none => Option.none
  | Option.some r1 =>
      let m1 := munch isReSpace r1
      match m1.2 with
      | c :: r3 =>
          if isWordChar c then
            let m2 := munch isWordChar r3
            Option.some (String.mk (c :: m2.1), m2.2, 10 + m1.1.length + 1 + m2.1.length)
          else Option.none
      | [] => Option.none

/-- `re.finditer(r'TOOL_CALL:\s*(\w+)', content, re.IGNORECASE)`: the
non-overlapping matches with their end positions (relative to the input). -/
def findToolCallsGo : Nat → List Char → List (String × Nat)
  | 0, _ => []
  | _ + 1, [] => []
  | fuel + 1, c :: t =>
      match matchToolCallAt (c :: t) with
      | Option.some (nm, rest, len) =>
          (nm, len) :: (findToolCallsGo fuel rest).map (fun q => (q.1, len + q.2))
      | Option.none => (findToolCallsGo fuel t).map (fun q => (q.1, 1 + q.2))

/-- `re.search(r'ARGUMENTS:\s*', remaining, re.IGNORECASE)`: the end offset of
the first match. -/
def findArgsGo : Nat → List Char → Nat → Option Nat
  | 0, _, _ => Option.none
  | fuel + 1, cs, pos =>
      match ciPrefix "ARGUMENTS:".data cs with
      | Option.some r1 =>
          let m := munch isReSpace r1
          Option.some (pos + 10 + m.1.length)
      | Option.none =>
          match cs with
          | [] => Option.none
          | _ :: t => findArgsGo fuel t (pos + 1)

/-- Strategy 1 of `_extract_tool_calls` (`perplexity.py`, lines 537-568): each
`TOOL_CALL` match yields a call whose arguments come from the brace-matched
JSON object after the `ARGUMENTS:` marker (searched in a 500-character
window), or `{}` when extraction fails; `uuid4` ids are modelled as `""`. -/
def extractToolCallsS1 (content : String) : List ToolCallF :=
  (findToolCallsGo content.data.length content.data).map (fun q =>
    let remaining := (content.data.drop q.2).take 500
    let jsonStart :=
      match findArgsGo remaining.length remaining 0 with
      | Option.some e => q.2 + e
      | Option.none => q.2
    let args :=
      match extractJsonObject content jsonStart with
      | Option.some (PyVal.dict kvs, _) => kvs
      | Option.some (_, _) => []
      | Option.none => []
    ⟨"", q.1, args⟩)

/-- `PerplexityClient._extract_tool_calls` (`perplexity.py`, lines 525-633):
strategy 1 plus the dedup by `f"{name}:{json.dumps(args, sort_keys=True)}"`
(the same key as `toolKey`); the XML and function-style fallback strategies
(lines 581-631) run only when strategy 1 finds nothing and are not modelled,
so `none` stands for `tool_calls if tool_calls else None` with empty
strategy-1 output. -/
def extractToolCalls (content : String) : Option (List ToolCallF) :=
  let tcs := dedupToolCalls (extractToolCallsS1 content)
  if tcs.isEmpty then Option.none else Option.some tcs

/-! ## Theorems -/

/-- C4: `ToolExecutor.execute(name, args)` never raises (it is a total
function of the handler behaviour): if `name` has no handler it returns
`{success: false, error: "Unknown tool: ..."}` listing the available tool
names; if `args` is not a dictionary it is treated as the empty dictionary;
on a handler exception it returns
`{success: false, tool: name, error: msg, error_type: class}`; and on a
handler result the key `tool = name` is attached to the returned result. -/
theorem executeTool_spec (beh : String → List (String × PyVal) → HandlerOutcome)
    (toolName : String) (params : PyVal) :
    (toolHandlerNames.contains toolName = false →
      executeTool beh toolName params = unknownToolResult toolName) ∧
    (params.isDict = false →
      executeTool beh toolName params = executeTool beh toolName (.dict [])) ∧
    (∀ m t, toolHandlerNames.contains toolName = true →
      beh toolName (coerceParams params) = .exn m t →
      executeTool beh toolName params =
        [("success", .bool false), ("tool", .str toolName),
         ("error", .str m), ("error_type", .str t)]) ∧
    (∀ r, toolHandlerNames.contains toolName = true →
      beh toolName (coerceParams params) = .ok r →
      executeTool beh toolName params = pySet r "tool" (.str toolName)) := by
  refine ⟨fun h => ?_, fun h => ?_, fun m t hc hb => ?_, fun r hc hb => ?_⟩
  · have h' : toolName ∉ toolHandlerNames := by simpa using h
    simp [executeTool, h']
  · have hcp : coerceParams params = [] := by
      cases params <;> simp_all [PyVal.isDict, coerceParams]
    unfold executeTool
    rw [hcp]
    rfl
  · have hc' : toolName ∈ toolHandlerNames := by simpa using hc
    simp [executeTool, hc', hb]
  · have hc' : toolName ∈ toolHandlerNames := by simpa using hc
    simp [executeTool, hc', hb]

/-- Witness for `executeTool_spec`: each clause applied at a concrete input. -/
theorem executeTool_spec_witness :
    executeTool behW "nope" (.dict []) = unknownToolResult "nope" ∧
    executeTool behW "click" (.str "x") = executeTool behW "click" (.dict []) ∧
    executeTool behW "fill" (.dict []) =
      [("success", .bool false), ("tool", .str "fill"),
       ("error", .str "boom"), ("error_type", .str "RuntimeError")] ∧
    executeTool behW "click" (.dict []) =
      pySet [("success", .bool true)] "tool" (.str "click") := by
  refine ⟨(executeTool_spec behW "nope" (.dict [])).1 (by decide),
    (executeTool_spec behW "click" (.str "x")).2.1 rfl,
    (executeTool_spec behW "fill" (.dict [])).2.2.1 "boom" "RuntimeError" (by decide) rfl,
    (executeTool_spec behW "click" (.dict [])).2.2.2 [("success", .bool true)] (by decide) rfl⟩

/-- Skipped candidates do not change the dedup loop. -/
theorem histDedupGo_skip {s : AgentStep} (hs : histCandidate s = Option.none)
    (h1 h2 : List AgentStep) (seen : List String) :
    histDedupGo (h1 ++ s :: h2) seen = histDedupGo (h1 ++ h2) seen := by
  induction h1 generalizing seen with
  | nil => simp [histDedupGo, hs]
  | cons a rest ih =>
      simp only [List.cons_append, histDedupGo]
      cases histCandidate a with
      | none => exact ih seen
      | some ts =>
          by_cases hk : seen.contains (keyOfTestStep ts) = true
          · simp only [hk, if_true]
            exact ih seen
          · simp only [hk, if_false, Bool.false_eq_true]
            exact congrArg (ts :: ·) (ih (keyOfTestStep ts :: seen))

/-- The keys emitted by the dedup loop are nodup and avoid `seen`. -/
theorem histDedupGo_keys (hist : List AgentStep) :
    ∀ seen : List String,
      ((histDedupGo hist seen).map keyOfTestStep).Nodup ∧
      ∀ ts' ∈ histDedupGo hist seen, keyOfTestStep ts' ∉ seen := by
  induction hist with
  | nil => intro seen; simp [histDedupGo]
  | cons step rest ih =>
      intro seen
      unfold histDedupGo
      cases hc : histCandidate step with
      | none => exact ih seen
      | some ts =>
          by_cases hk : keyOfTestStep ts ∈ seen
          · simpa [hk] using ih seen
          · obtain ⟨hnd, havoid⟩ := ih (keyOfTestStep ts :: seen)
            have hcond : seen.contains (keyOfTestStep ts) = false := by
              simpa using hk
            simp only [hcond, if_false, Bool.false_eq_true, List.map_cons, List.nodup_cons]
            refine ⟨⟨?_, hnd⟩, ?_⟩
            · intro hmem
              obtain ⟨x, hx, hxk⟩ := List.mem_map.mp hmem
              exact (havoid x hx) (by simp [hxk])
            · intro ts' hts'
              rcases List.mem_cons.mp hts' with h | h
              · subst h; exact hk
              · intro hks
                exact (havoid ts' h) (List.mem_cons_of_mem _ hks)

/-- C9 (counterexample): the transform of a history containing a successful
navigate back to the starting URL yields two consecutive test steps with the
same `action:selector:value` key, so consecutive duplicates do appear. -/
theorem historyToTestSteps_consec_dup_cex :
    historyToTestSteps histNavDup "https://x.test" =
      [{ action := "navigate", selector := Option.none,
         value := Option.some "https://x.test", expected := Option.none },
       { action := "navigate", selector := Option.none,
         value := Option.some "https://x.test", expected := Option.none }] ∧
    consecDupFree (historyToTestSteps histNavDup "https://x.test") = false := by
  exact ⟨rfl, rfl⟩

/-- C9 (amended): the history-to-TestStep transform always begins with
`(navigate, url)`; steps with a truthy error and steps whose tool is
non-actionable are omitted; the steps derived from the history carry pairwise
distinct `action:selector:value` keys (the initial navigate step is not part
of that deduplication). -/
theorem historyToTestSteps_spec :
    (∀ (history : List AgentStep) (url : String),
      (historyToTestSteps history url).head? =
        Option.some { action := "navigate", selector := Option.none,
                      value := Option.some url, expected := Option.none }) ∧
    (∀ (h1 h2 : List AgentStep) (s : AgentStep) (url : String),
      optTruthy s.error = true →
      historyToTestSteps (h1 ++ s :: h2) url = historyToTestSteps (h1 ++ h2) url) ∧
    (∀ (h1 h2 : List AgentStep) (s : AgentStep) (url : String) (t : String),
      s.toolName = Option.some t → t ∈ nonActionableTools →
      historyToTestSteps (h1 ++ s :: h2) url = historyToTestSteps (h1 ++ h2) url) ∧
    (∀ (history : List AgentStep) (url : String),
      ((historyToTestSteps history url).tail.map keyOfTestStep).Nodup) := by
  refine ⟨fun history url => rfl, fun h1 h2 s url herr => ?_, fun h1 h2 s url t ht hmem => ?_, fun history url => ?_⟩
  · have hc : histCandidate s = Option.none := by
      simp [histCandidate, herr]
    unfold historyToTestSteps
    rw [histDedupGo_skip hc]
  · have hmem' : s.toolName.getD "" ∈ nonActionableTools := by
      rw [ht]
      simpa using hmem
    have hc : histCandidate s = Option.none := by
      simp [histCandidate, hmem']
    unfold historyToTestSteps
    rw [histDedupGo_skip hc]
  · have : (historyToTestSteps history url).tail = histDedupGo history [] := rfl
    rw [this]
    exact (histDedupGo_keys history []).1

/-- Witness for `historyToTestSteps_spec`: each clause applied at a concrete
input. -/
theorem historyToTestSteps_spec_witness :
    (historyToTestSteps histNavDup "https://x.test").head? =
      Option.some { action := "navigate", selector := Option.none,
                    value := Option.some "https://x.test", expected := Option.none } ∧
    historyToTestSteps ([] ++ errStepW :: []) "u" = historyToTestSteps ([] ++ []) "u" ∧
    historyToTestSteps ([] ++ obsStepW :: []) "u" = historyToTestSteps ([] ++ []) "u" ∧
    ((historyToTestSteps histNavDup "https://x.test").tail.map keyOfTestStep).Nodup := by
  refine ⟨historyToTestSteps_spec.1 histNavDup "https://x.test",
    historyToTestSteps_spec.2.1 [] [] errStepW "u" (by rfl),
    historyToTestSteps_spec.2.2.1 [] [] obsStepW "u" "screenshot" rfl (by decide),
    historyToTestSteps_spec.2.2.2 histNavDup "https://x.test"⟩

/-- A plan with no truthy navigate step leaves the filename base at its
default `"generated"`. -/
theorem filenameBase_default (plan : List TestStep)
    (h : ∀ s ∈ plan, ¬(pyLower s.action = "navigate" ∧ optTruthy s.value = true)) :
    filenameBase plan = "generated" := by
  induction plan with
  | nil => rfl
  | cons s rest ih =>
      unfold filenameBase
      rw [if_neg (h s (List.mem_cons_self s rest))]
      exact ih fun x hx => h x (List.mem_cons_of_mem _ hx)

/-- C10 counterexample: the filename is not in general derived from the first
navigate URL. The first navigate of `codegenPlanWww` has first host label
`"www"`, which the code skips, so the name comes from the second navigate
(`"test-bar.spec.ts"`), not from the claim\x27s formula applied to the first
navigate URL (which would give `"test-www.spec.ts"`). -/
theorem codeGen_filename_www_cex :
    firstLabel (stripProtocol "https://www.foo.com") = "www" ∧
    generateFilename codegenPlanWww .typescript = "test-bar.spec.ts" ∧
    generateFilename codegenPlanWww .typescript ≠
      "test-" ++ stripDashes (collapseDashes (mapNonAlnum (pyLower
        (firstLabel (stripProtocol "https://www.foo.com"))))) ++ extFor .typescript ∧
    generateFilename [{ action := "navigate", value := Option.some "https://www.foo.com" }]
      .typescript = "test-generated.spec.ts" :=
  ⟨rfl, by decide, by decide, by decide⟩

set_option maxRecDepth 20000 in
/-- C10 (amended): for framework playwright and language typescript, the test
plan `[{navigate, https://x.test}, {click, button#go}]` produces code
containing `await page.goto(\x27https://x.test\x27);` and
`await page.click(\x27button#go\x27);` and the filename `"test-x.spec.ts"`;
in general the filename defaults to `"generated"` when no navigate step with
a truthy value exists, is derived from the first navigate URL whose first
host label is non-empty and not `"www"` by stripping the protocol,
lower-casing, mapping non-alphanumeric characters to `-`, collapsing repeated
dashes, stripping outer dashes, and appending the language-specific
extension, and a leading navigate whose first host label is empty or `"www"`
is skipped: the filename equals that of the remaining plan. -/
theorem codeGen_scenario_spec :
    (strContains (codeGenGenerate codegenPlanX .typescript).1
       "await page.goto(\x27https://x.test\x27);" = true ∧
     strContains (codeGenGenerate codegenPlanX .typescript).1
       "await page.click(\x27button#go\x27);" = true ∧
     (codeGenGenerate codegenPlanX .typescript).2 = "test-x.spec.ts") ∧
    (∀ (plan : List TestStep) (lang : LanguageF),
      (∀ s ∈ plan, ¬(pyLower s.action = "navigate" ∧ optTruthy s.value = true)) →
      generateFilename plan lang = "test-generated" ++ extFor lang) ∧
    (∀ (url : String) (rest : List TestStep) (lang : LanguageF),
      url.data ≠ [] →
      firstLabel (stripProtocol url) ≠ "" →
      firstLabel (stripProtocol url) ≠ "www" →
      generateFilename ({ action := "navigate", value := Option.some url } :: rest) lang =
        "test-" ++
          stripDashes (collapseDashes (mapNonAlnum (pyLower (firstLabel (stripProtocol url))))) ++
          extFor lang) ∧
    (∀ (url : String) (rest : List TestStep) (lang : LanguageF),
      url.data ≠ [] →
      (firstLabel (stripProtocol url) = "" ∨ firstLabel (stripProtocol url) = "www") →
      generateFilename ({ action := "navigate", value := Option.some url } :: rest) lang =
        generateFilename rest lang) := by
  refine ⟨⟨by decide, by decide, by decide⟩, fun plan lang h => ?_,
    fun url rest lang hne h1 h2 => ?_, fun url rest lang hne h12 => ?_⟩
  · unfold generateFilename
    rw [filenameBase_default plan h]
    rfl
  · have hv : optTruthy (Option.some url) = true := by
      unfold optTruthy
      simp [List.isEmpty_iff, hne]
    unfold generateFilename filenameBase
    rw [if_pos ⟨rfl, hv⟩]
    simp only [Option.getD_some]
    rw [if_pos ⟨h1, h2⟩]
  · have hv : optTruthy (Option.some url) = true := by
      unfold optTruthy
      simp [List.isEmpty_iff, hne]
    have hfb : filenameBase ({ action := "navigate", value := Option.some url } :: rest) =
        filenameBase rest := by
      unfold filenameBase
      rw [if_pos ⟨rfl, hv⟩]
      simp only [Option.getD_some]
      rw [if_neg (by rcases h12 with h | h <;> simp [h])]
      rcases rest with _ | ⟨s, r⟩ <;> rfl
    unfold generateFilename
    rw [hfb]

/-- Witness for `codeGen_scenario_spec`: the general filename clauses applied
at concrete inputs, including the www-skip clause. -/
theorem codeGen_scenario_spec_witness :
    generateFilename [{ action := "click", selector := Option.some "button" }] .python =
      "test-generated" ++ extFor .python ∧
    generateFilename [{ action := "navigate", value := Option.some "https://x.test" }] .typescript =
      "test-" ++
        stripDashes (collapseDashes (mapNonAlnum (pyLower (firstLabel (stripProtocol "https://x.test"))))) ++
        extFor .typescript ∧
    generateFilename codegenPlanWww .typescript =
      generateFilename [{ action := "navigate", value := Option.some "https://bar.com" }] .typescript := by
  refine ⟨codeGen_scenario_spec.2.1 [{ action := "click", selector := Option.some "button" }]
      .python ?_,
    codeGen_scenario_spec.2.2.1 "https://x.test" [] .typescript (by decide) (by decide) (by decide),
    codeGen_scenario_spec.2.2.2 "https://www.foo.com"
      [{ action := "navigate", value := Option.some "https://bar.com" }] .typescript
      (by decide) (Or.inr rfl)⟩
  intro s hs
  have hseq : s = { action := "click", selector := Option.some "button" } := by
    simpa using hs
  subst hseq
  decide

/-- C3 (counterexample): at a concrete valid request and non-empty API key,
`AgentService.run` yields no events at all — in particular no error event —
terminating instead by an uncaught `AttributeError` on `request.url_username`
before any `Agent` is constructed. -/
theorem agentServiceRun_no_error_event_cex :
    (agentServiceRun reqW (Option.some "k")).1 = [] ∧
    (agentServiceRun reqW (Option.some "k")).2.1 = .raised "AttributeError" "url_username" ∧
    (agentServiceRun reqW (Option.some "k")).2.2 = false := by
  exact ⟨rfl, rfl, rfl⟩

/-- C3 (amended): for every request and non-empty API key, `AgentService.run`
terminates by raising `AttributeError` on `request.url_username` — yielding
no event and never constructing or running an `Agent`; `url_username` and
`url_password` are not fields of `AgentRequest`, `http_credentials` is not a
field of the `AgentConfig` dataclass, and `session` is not a parameter of
`Agent.run`. -/
theorem agentServiceRun_spec (req : AgentRequest) (k : String) (hk : k ≠ "") :
    agentServiceRun req (Option.some k) =
      ([], .raised "AttributeError" "url_username", false) ∧
    "url_username" ∉ agentRequestFields ∧
    "url_password" ∉ agentRequestFields ∧
    "http_credentials" ∉ agentConfigFields ∧
    "session" ∉ agentRunParams := by
  have hkd : k.data ≠ [] := by
    intro h
    exact hk (congrArg String.mk h)
  have htr : optTruthy (Option.some k) = true := by
    unfold optTruthy
    simp [List.isEmpty_iff, hkd]
  refine ⟨?_, by decide, by decide, by decide, by decide⟩
  have h1 : agentRequestFields.contains "url_username" = false := by decide
  simp [agentServiceRun, htr, h1]
  intro hmem
  exact absurd hmem (by decide)

/-- Witness for `agentServiceRun_spec` at a concrete request and key. -/
theorem agentServiceRun_spec_witness :
    agentServiceRun reqW (Option.some "k") =
      ([], .raised "AttributeError" "url_username", false) ∧
    "url_username" ∉ agentRequestFields ∧
    "url_password" ∉ agentRequestFields ∧
    "http_credentials" ∉ agentConfigFields ∧
    "session" ∉ agentRunParams :=
  agentServiceRun_spec reqW "k" (by decide)

/-- The retry loop never makes more than `maxAttempts` attempts. -/
theorem retryGo_le (maxAttempts : Nat) (env : Nat → Except PyExn Unit) :
    ∀ fuel n, n ≤ maxAttempts → (retryRun.go maxAttempts env fuel n).2 ≤ maxAttempts
  | 0, n, h => by simpa [retryRun.go] using h
  | fuel + 1, n, h => by
      unfold retryRun.go
      cases henv : env n with
      | ok v => simpa using h
      | error e =>
          dsimp only
          by_cases hr : retryableExn e = true ∧ n < maxAttempts
          · rw [if_pos hr]
            exact retryGo_le maxAttempts env fuel (n + 1) hr.2
          · rw [if_neg hr]
            simpa using h

/-- The attempt counter of the retry loop never decreases. -/
theorem retryGo_ge (maxAttempts : Nat) (env : Nat → Except PyExn Unit) :
    ∀ fuel n, n ≤ (retryRun.go maxAttempts env fuel n).2
  | 0, n => by simp [retryRun.go]
  | fuel + 1, n => by
      unfold retryRun.go
      cases henv : env n with
      | ok v => simp
      | error e =>
          dsimp only
          by_cases hr : retryableExn e = true ∧ n < maxAttempts
          · rw [if_pos hr]
            exact le_trans (Nat.le_succ n) (retryGo_ge maxAttempts env fuel (n + 1))
          · rw [if_neg hr]

/-- When the retry loop ends in an error, that error is the one raised by the
last attempt made (tenacity `reraise=True`). -/
theorem retryGo_last (maxAttempts : Nat) (env : Nat → Except PyExn Unit) :
    ∀ fuel n e, (retryRun.go maxAttempts env fuel n).1 = .error e →
      env ((retryRun.go maxAttempts env fuel n).2) = .error e
  | 0, n, e, h => by
      simp only [retryRun.go] at h ⊢
      exact h
  | fuel + 1, n, e, h => by
      unfold retryRun.go at h ⊢
      cases henv : env n with
      | ok v => rw [henv] at h; dsimp only at h; exact absurd h (by simp)
      | error e' =>
          rw [henv] at h
          dsimp only at h ⊢
          by_cases hr : retryableExn e' = true ∧ n < maxAttempts
          · rw [if_pos hr] at h ⊢
            exact retryGo_last maxAttempts env fuel (n + 1) e h
          · rw [if_neg hr] at h ⊢
            simp only at h
            cases h
            exact henv

/-- C8 (counterexample): when every attempt receives HTTP 429, `chat` makes
exactly one attempt and raises `ValueError` immediately — HTTP 429 is not
retried, because `chat` converts it to `ValueError` (not retryable) before
`raise_for_status` could raise the retryable `HTTPStatusError`. -/
theorem perplexity_retry_429_cex :
    perplexityChatRetried oracle429 = (.error ⟨"ValueError", msg429⟩, 1) ∧
    retryableExn ⟨"ValueError", msg429⟩ = false := by
  exact ⟨rfl, rfl⟩

/-- C8 (amended): chat requests are retried on network timeouts, connection
errors, and HTTP status errors not explicitly handled (404, 5xx, …), with at
most 3 attempts and the final error re-raised; HTTP 429, like 400, 401 and
403, is converted immediately to a `ValueError` whose message names the
provider, and is not retried. -/
theorem perplexity_retry_spec :
    (∀ oracle, (perplexityChatRetried oracle).2 ≤ 3) ∧
    (∀ oracle e, (perplexityChatRetried oracle).1 = .error e →
      chatAttempt (oracle (perplexityChatRetried oracle).2) = .error e) ∧
    (∀ oracle e, chatAttempt (oracle 1) = .error e → retryableExn e = true →
      2 ≤ (perplexityChatRetried oracle).2) ∧
    (∀ oracle e, chatAttempt (oracle 1) = .error e → retryableExn e = false →
      perplexityChatRetried oracle = (.error e, 1)) ∧
    (∀ m, retryableExn ⟨"TimeoutException", m⟩ = true ∧
      retryableExn ⟨"ConnectError", m⟩ = true ∧
      chatAttempt (.status 500 m) = .error ⟨"HTTPStatusError", "HTTP status " ++ toString 500⟩ ∧
      retryableExn ⟨"HTTPStatusError", "HTTP status " ++ toString 500⟩ = true ∧
      chatAttempt (.status 400 m) = .error ⟨"ValueError", "Perplexity API error: " ++ m⟩ ∧
      chatAttempt (.status 401 m) = .error ⟨"ValueError", msg401⟩ ∧
      chatAttempt (.status 403 m) = .error ⟨"ValueError", msg403⟩ ∧
      chatAttempt (.status 429 m) = .error ⟨"ValueError", msg429⟩ ∧
      strContains msg401 "Perplexity" = true ∧
      strContains msg403 "Perplexity" = true ∧
      strContains msg429 "Perplexity" = true) := by
  refine ⟨fun oracle => ?_, fun oracle e h => ?_, fun oracle e h hr => ?_,
    fun oracle e h hr => ?_,
    fun m => ⟨rfl, rfl, rfl, rfl, rfl, rfl, rfl, rfl, by decide, by decide, by decide⟩⟩
  · exact retryGo_le 3 _ 3 1 (by decide)
  · exact retryGo_last 3 _ 3 1 e h
  · show 2 ≤ (retryRun.go 3 _ 3 1).2
    unfold retryRun.go
    rw [h]
    dsimp only
    rw [if_pos ⟨hr, by decide⟩]
    exact retryGo_ge 3 _ 2 2
  · show retryRun 3 _ = _
    unfold retryRun retryRun.go
    rw [h]
    dsimp only
    rw [if_neg (fun hc => by simp [hr] at hc)]

/-- Witness for `perplexity_retry_spec`: clauses applied at the all-timeout
and all-429 environments. -/
theorem perplexity_retry_spec_witness :
    (perplexityChatRetried oracleTimeout).2 ≤ 3 ∧
    chatAttempt (oracleTimeout (perplexityChatRetried oracleTimeout).2) =
      .error ⟨"TimeoutException", "timed out"⟩ ∧
    2 ≤ (perplexityChatRetried oracleTimeout).2 ∧
    perplexityChatRetried oracle429 = (.error ⟨"ValueError", msg429⟩, 1) ∧
    retryableExn ⟨"TimeoutException", "x"⟩ = true := by
  refine ⟨perplexity_retry_spec.1 oracleTimeout,
    perplexity_retry_spec.2.1 oracleTimeout ⟨"TimeoutException", "timed out"⟩ rfl,
    perplexity_retry_spec.2.2.1 oracleTimeout ⟨"TimeoutException", "timed out"⟩ rfl rfl,
    perplexity_retry_spec.2.2.2.1 oracle429 ⟨"ValueError", msg429⟩ rfl rfl,
    (perplexity_retry_spec.2.2.2.2 "x").1⟩

/-- Appending one message to an alternating sequence. -/
theorem altFrom_snoc : ∀ (xs : List DMsg) (e : String) (m : DMsg),
    altFrom e (xs ++ [m]) = (altFrom e xs && (m.role == expAfter e xs))
  | [], e, m => by simp [altFrom, expAfter]
  | x :: xs, e, m => by
      simp only [List.cons_append, altFrom, expAfter, List.append_eq,
        altFrom_snoc xs (roleToggle e) m, Bool.and_assoc]

/-- The expected role after a sequence extended by one message. -/
theorem expAfter_snoc : ∀ (xs : List DMsg) (e : String) (m : DMsg),
    expAfter e (xs ++ [m]) = roleToggle (expAfter e xs)
  | [], e, m => by simp [expAfter]
  | x :: xs, e, m => by
      simp only [List.cons_append, expAfter, List.append_eq,
        expAfter_snoc xs (roleToggle e) m]

/-- `roleToggle` only produces `user` or `assistant`. -/
theorem roleToggle_cases (e : String) : roleToggle e = "user" ∨ roleToggle e = "assistant" := by
  unfold roleToggle
  by_cases h : e = "user" <;> simp [h]

/-- The expected role stays within `user`/`assistant`. -/
theorem expAfter_cases : ∀ (xs : List DMsg) (e : String),
    e = "user" ∨ e = "assistant" → expAfter e xs = "user" ∨ expAfter e xs = "assistant"
  | [], _, h => h
  | _ :: xs, e, _ => expAfter_cases xs (roleToggle e) (roleToggle_cases e)

/-- Invariant of the `_enforce_alternation` loop: starting from a reversed
accumulator that alternates from `user` with `expected` being the next
expected role, the loop's output alternates from `user`; the output is
non-empty whenever the accumulator or the remaining input is. -/
theorem alternLoop_inv :
    ∀ (conv acc : List DMsg) (expected : String),
      (∀ m ∈ conv, m.role = "user" ∨ m.role = "assistant") →
      altFrom "user" acc.reverse = true →
      expAfter "user" acc.reverse = expected →
      altFrom "user" (alternLoop conv acc expected) = true ∧
      ((acc ≠ [] ∨ conv ≠ []) → alternLoop conv acc expected ≠ [])
  | [], acc, expected, _, halt, _ => by
      refine ⟨by simpa [alternLoop] using halt, ?_⟩
      rintro (h | h)
      · simpa [alternLoop] using h
      · exact absurd rfl h
  | msg :: rest, acc, expected, hroles, halt, hexp => by
      have hmsg := hroles msg (List.mem_cons_self msg rest)
      have hrest : ∀ m ∈ rest, m.role = "user" ∨ m.role = "assistant" :=
        fun m hm => hroles m (List.mem_cons_of_mem _ hm)
      unfold alternLoop
      by_cases h1 : msg.role = expected
      · rw [if_pos h1]
        have halt' : altFrom "user" (msg :: acc).reverse = true := by
          rw [List.reverse_cons, altFrom_snoc, halt, hexp, h1]
          simp
        have hexp' : expAfter "user" (msg :: acc).reverse =
            (if expected = "user" then "assistant" else "user") := by
          rw [List.reverse_cons, expAfter_snoc, hexp]
          rfl
        obtain ⟨ha, hb⟩ := alternLoop_inv rest (msg :: acc) _ hrest halt' hexp'
        exact ⟨ha, fun _ => hb (Or.inl (by simp))⟩
      · rw [if_neg h1]
        cases acc with
        | nil =>
            dsimp only
            have hexpu : expected = "user" := by simpa [expAfter] using hexp.symm
            have hmsga : msg.role = "assistant" := by
              rcases hmsg with h | h
              · exact absurd (h.trans hexpu.symm) h1
              · exact h
            rw [if_pos hmsga]
            have halt' : altFrom "user"
                ([msg, { role := "user", content := "Continue with the task." }] :
                  List DMsg).reverse = true := by
              simp [altFrom, roleToggle, hmsga]
            have hexp' : expAfter "user"
                ([msg, { role := "user", content := "Continue with the task." }] :
                  List DMsg).reverse = "user" := by
              simp [expAfter, roleToggle]
            obtain ⟨ha, hb⟩ := alternLoop_inv rest _ _ hrest halt' hexp'
            exact ⟨ha, fun _ => hb (Or.inl (by simp))⟩
        | cons prev tail =>
            dsimp only
            have hsplit : (prev :: tail : List DMsg).reverse = tail.reverse ++ [prev] := by
              simp
            have hpair : altFrom "user" tail.reverse = true ∧
                (prev.role == expAfter "user" tail.reverse) = true := by
              have hc := halt
              rw [hsplit, altFrom_snoc] at hc
              simpa using hc
            have htail : altFrom "user" tail.reverse = true := hpair.1
            have hprev : prev.role = expAfter "user" tail.reverse := eq_of_beq hpair.2
            have hexpt : expected = roleToggle (expAfter "user" tail.reverse) := by
              rw [← hexp, hsplit, expAfter_snoc]
            have hpm : prev.role = msg.role := by
              have hexpA := expAfter_cases tail.reverse "user" (Or.inl rfl)
              rcases hexpA with he | he
              · -- prev is user, expected is assistant, so msg must be user
                rw [he] at hprev hexpt
                have : expected = "assistant" := by simpa [roleToggle] using hexpt
                rcases hmsg with h | h
                · rw [hprev, h]
                · exact absurd (h.trans this.symm) h1
              · rw [he] at hprev hexpt
                have : expected = "user" := by simpa [roleToggle] using hexpt
                rcases hmsg with h | h
                · exact absurd (h.trans this.symm) h1
                · rw [hprev, h]
            rw [if_pos hpm]
            have halt' : altFrom "user"
                (({ role := prev.role, content := prev.content ++ "\n\n" ++ msg.content } :: tail :
                  List DMsg)).reverse = true := by
              rw [List.reverse_cons, altFrom_snoc, htail]
              simp [hprev]
            have hexp' : expAfter "user"
                (({ role := prev.role, content := prev.content ++ "\n\n" ++ msg.content } :: tail :
                  List DMsg)).reverse = expected := by
              rw [List.reverse_cons, expAfter_snoc, hexpt]
            obtain ⟨ha, hb⟩ := alternLoop_inv rest _ _ hrest halt' hexp'
            exact ⟨ha, fun _ => hb (Or.inl (by simp))⟩

/-- `ensureEndsUser` keeps the alternation-from-user property, keeps the list
non-empty, and makes the last role `user`. -/
theorem ensureEndsUser_spec (res : List DMsg) (hne : res ≠ [])
    (halt : altFrom "user" res = true) :
    altFrom "user" (ensureEndsUser res) = true ∧
    ensureEndsUser res ≠ [] ∧
    (ensureEndsUser res).getLast?.map (fun m => m.role) = Option.some "user" := by
  rcases List.eq_nil_or_concat res with h | ⟨xs, l, hres⟩
  · exact absurd h hne
  · subst hres
    rw [List.concat_eq_append] at halt ⊢
    have hlastq : (xs ++ [l]).getLast? = Option.some l := by
      simp [List.getLast?_append]
    have hpair : altFrom "user" xs = true ∧ (l.role == expAfter "user" xs) = true := by
      have hc := halt
      rw [altFrom_snoc] at hc
      simpa using hc
    have hl : l.role = expAfter "user" xs := eq_of_beq hpair.2
    unfold ensureEndsUser
    rw [hlastq]
    dsimp only
    by_cases hrole : l.role = "assistant"
    · rw [if_pos hrole]
      refine ⟨?_, by simp, ?_⟩
      · rw [List.append_assoc, ← List.concat_eq_append]
        rw [List.concat_eq_append, ← List.append_assoc, altFrom_snoc, halt, expAfter_snoc,
          ← hl, hrole]
        simp [roleToggle]
      · simp [List.getLast?_append]
    · rw [if_neg hrole]
      have hlu : l.role = "user" := by
        rcases expAfter_cases xs "user" (Or.inl rfl) with h | h
        · rw [hl, h]
        · exact absurd (hl.trans h) hrole
      exact ⟨halt, by simp, by rw [hlastq]; simp [hlu]⟩

/-- C7: after `_enforce_alternation` the messages following the system
message(s) strictly alternate user/assistant starting with user and end with
user (`altFrom "user"` with a final `user` role); consecutive same-role
messages are merged with a blank line; a missing user turn is filled with
"Acknowledged. Continue."; and "Please continue with the next action." is
appended when the conversation would otherwise end with the assistant. -/
theorem enforceAlternation_spec :
    (∀ msgs : List DMsg,
      (∀ m ∈ msgs, m.role = "system" ∨ m.role = "user" ∨ m.role = "assistant") →
      msgs.filter (fun m => m.role ≠ "system") ≠ [] →
      ∃ conv',
        enforceAlternation msgs = msgs.filter (fun m => m.role = "system") ++ conv' ∧
        altFrom "user" conv' = true ∧ conv' ≠ [] ∧
        conv'.getLast?.map (fun m => m.role) = Option.some "user") ∧
    enforceAlternation [⟨"user", "a"⟩, ⟨"user", "b"⟩] = [⟨"user", "a\n\nb"⟩] ∧
    enforceAlternation [⟨"user", "a"⟩, ⟨"tool", "t"⟩, ⟨"assistant", "b"⟩] =
      [⟨"user", "a"⟩, ⟨"tool", "t"⟩, ⟨"user", "Acknowledged. Continue."⟩,
       ⟨"assistant", "b"⟩, ⟨"user", "Please continue with the next action."⟩] ∧
    enforceAlternation [⟨"system", "s"⟩, ⟨"user", "a"⟩, ⟨"assistant", "b"⟩] =
      [⟨"system", "s"⟩, ⟨"user", "a"⟩, ⟨"assistant", "b"⟩,
       ⟨"user", "Please continue with the next action."⟩] := by
  refine ⟨fun msgs hroles hconv => ?_, rfl, rfl, rfl⟩
  have hmsgs : msgs ≠ [] := by
    intro h
    subst h
    simp at hconv
  have hconvroles : ∀ m ∈ msgs.filter (fun m => m.role ≠ "system"),
      m.role = "user" ∨ m.role = "assistant" := by
    intro m hm
    have hm' := List.mem_filter.mp hm
    have hns : m.role ≠ "system" := by simpa using hm'.2
    rcases hroles m hm'.1 with h | h | h
    · exact absurd h hns
    · exact Or.inl h
    · exact Or.inr h
  obtain ⟨ha, hb⟩ := alternLoop_inv (msgs.filter (fun m => m.role ≠ "system")) [] "user"
    hconvroles (by simp [altFrom]) (by simp [expAfter])
  have hne := hb (Or.inr hconv)
  obtain ⟨h1, h2, h3⟩ := ensureEndsUser_spec _ hne ha
  refine ⟨ensureEndsUser (alternLoop (msgs.filter (fun m => m.role ≠ "system")) [] "user"),
    ?_, h1, h2, h3⟩
  unfold enforceAlternation
  rw [if_neg (by simpa [List.isEmpty_iff] using hmsgs)]
  rw [if_neg (by simpa [List.isEmpty_iff] using hconv)]

/-- Witness for `enforceAlternation_spec`: the universal clause applied at a
concrete three-message conversation. -/
theorem enforceAlternation_spec_witness :
    ∃ conv',
      enforceAlternation [⟨"system", "s"⟩, ⟨"assistant", "b"⟩, ⟨"user", "u"⟩] =
        ([⟨"system", "s"⟩, ⟨"assistant", "b"⟩, ⟨"user", "u"⟩] : List DMsg).filter
          (fun m => m.role = "system") ++ conv' ∧
      altFrom "user" conv' = true ∧ conv' ≠ [] ∧
      conv'.getLast?.map (fun m => m.role) = Option.some "user" := by
  exact enforceAlternation_spec.1 [⟨"system", "s"⟩, ⟨"assistant", "b"⟩, ⟨"user", "u"⟩]
    (by decide) (by decide)

/-- The role loop maps the alternating all-`"abc"` conversation to its direct
image. -/
theorem altMsgs_stage1 : ∀ k, convertStage1 (altMsgsC6 k) [] = altD k
  | 0 => by
      simp [altMsgsC6, altD, convertStage1, strLen, MAX_CONTENT_CHARS]
  | k + 1 => by
      simp [altMsgsC6, altD, convertStage1, strLen, MAX_CONTENT_CHARS, altMsgs_stage1 k]

/-- Merging is the identity on the alternating conversation. -/
theorem mergeGo_altD : ∀ (k : Nat) (acc : List DMsg),
    (acc = [] ∨ ∃ mc tail, acc = ⟨"assistant", mc⟩ :: tail) →
    mergeGo (altD k) acc = acc.reverse ++ altD k
  | 0, acc, h => by
      rcases h with rfl | ⟨mc, tail, rfl⟩
      · rfl
      · have e : mergeGo (altD 0) (⟨"assistant", mc⟩ :: tail) =
            (⟨"user", "abc"⟩ :: ⟨"assistant", mc⟩ :: tail : List DMsg).reverse := rfl
        rw [e]
        simp [altD]
  | k + 1, acc, h => by
      rcases h with rfl | ⟨mc, tail, rfl⟩
      · have e : mergeGo (altD (k + 1)) ([] : List DMsg) =
            mergeGo (altD k) [⟨"assistant", "abc"⟩, ⟨"user", "abc"⟩] := rfl
        rw [e, mergeGo_altD k _ (Or.inr ⟨"abc", _, rfl⟩)]
        simp [altD]
      · have e : mergeGo (altD (k + 1)) (⟨"assistant", mc⟩ :: tail) =
            mergeGo (altD k)
              (⟨"assistant", "abc"⟩ :: ⟨"user", "abc"⟩ :: ⟨"assistant", mc⟩ :: tail) := rfl
        rw [e, mergeGo_altD k _ (Or.inr ⟨"abc", _, rfl⟩)]
        simp [altD]

/-- The alternating conversation always starts with a user message. -/
theorem altD_cons : ∀ k, ∃ rest, altD k = ⟨"user", "abc"⟩ :: rest
  | 0 => ⟨[], rfl⟩
  | k + 1 => ⟨⟨"assistant", "abc"⟩ :: altD k, rfl⟩

/-- The alternating conversation has no system messages. -/
theorem altD_filter_system : ∀ k,
    (altD k).filter (fun m => m.role = "system") = []
  | 0 => by simp [altD]
  | k + 1 => by simp [altD, altD_filter_system k]

/-- Roles of the alternating conversation. -/
theorem altD_roles : ∀ k, ∀ m ∈ altD k, m.role = "user" ∨ m.role = "assistant"
  | 0, m, hm => by
      simp [altD] at hm
      subst hm
      exact Or.inl rfl
  | k + 1, m, hm => by
      simp only [altD, List.mem_cons] at hm
      rcases hm with rfl | rfl | hm
      · exact Or.inl rfl
      · exact Or.inr rfl
      · exact altD_roles k m hm

/-- Every message of the alternating conversation is non-system. -/
theorem altD_filter_nonsystem (k : Nat) :
    (altD k).filter (fun m => m.role ≠ "system") = altD k := by
  rw [List.filter_eq_self]
  intro m hm
  rcases altD_roles k m hm with h | h <;> simp [h]

/-- The `_enforce_alternation` loop is the identity on the alternating
conversation. -/
theorem alternLoop_altD : ∀ k (acc : List DMsg),
    alternLoop (altD k) acc "user" = acc.reverse ++ altD k
  | 0, acc => by
      have e : alternLoop (altD 0) acc "user" =
          (⟨"user", "abc"⟩ :: acc : List DMsg).reverse := rfl
      rw [e]
      simp [altD]
  | k + 1, acc => by
      have e : alternLoop (altD (k + 1)) acc "user" =
          alternLoop (altD k) (⟨"assistant", "abc"⟩ :: ⟨"user", "abc"⟩ :: acc) "user" := rfl
      rw [e, alternLoop_altD k _]
      simp [altD]

/-- The alternating conversation ends with a user message. -/
theorem altD_getLast : ∀ k, (altD k).getLast? = Option.some ⟨"user", "abc"⟩
  | 0 => rfl
  | k + 1 => by
      obtain ⟨rest, hr⟩ := altD_cons k
      show (⟨"user", "abc"⟩ :: ⟨"assistant", "abc"⟩ :: altD k : List DMsg).getLast? = _
      rw [List.getLast?_cons_cons, hr, List.getLast?_cons_cons, ← hr]
      exact altD_getLast k

/-- `_enforce_alternation` is the identity on the alternating conversation. -/
theorem enforceAlternation_altD (k : Nat) : enforceAlternation (altD k) = altD k := by
  obtain ⟨rest, hr⟩ := altD_cons k
  unfold enforceAlternation
  rw [if_neg (by rw [hr]; simp)]
  rw [altD_filter_system k, altD_filter_nonsystem k]
  rw [if_neg (by rw [hr]; simp)]
  rw [alternLoop_altD k []]
  simp only [List.reverse_nil, List.nil_append]
  unfold ensureEndsUser
  rw [altD_getLast k]
  simp

/-- The contents of the alternating conversation have three characters. -/
theorem abcLen : strLen "abc" = 3 := rfl

/-- Character count of the alternating conversation: `6 k + 3`. -/
theorem altD_charSum : ∀ k,
    ((altD k).map (fun m => strLen m.content)).sum = 6 * k + 3
  | 0 => by
      simp only [altD, List.map_cons, List.map_nil, List.sum_cons, List.sum_nil, abcLen]
      norm_num
  | k + 1 => by
      simp only [altD, List.map_cons, List.sum_cons, abcLen, altD_charSum k]
      ring

/-- All contents of the alternating conversation are `"abc"`. -/
theorem altD_tokens_zero : ∀ k, ∀ m ∈ altD k, estTokens m.content = 0
  | 0, m, hm => by
      simp [altD] at hm
      subst hm
      rfl
  | k + 1, m, hm => by
      simp only [altD, List.mem_cons] at hm
      rcases hm with rfl | rfl | hm
      · rfl
      · rfl
      · exact altD_tokens_zero k m hm

/-- The keep-walk keeps everything when every message has zero estimated
tokens and the budget is non-negative. -/
theorem truncKeepGo_zero (available : Int) (hav : 0 ≤ available) :
    ∀ (xs kept : List DMsg), (∀ m ∈ xs, estTokens m.content = 0) →
      truncKeepGo available xs 0 kept = xs.reverse ++ kept
  | [], kept, _ => by simp [truncKeepGo]
  | msg :: rest, kept, hz => by
      have h0 : estTokens msg.content = 0 := hz msg (List.mem_cons_self _ _)
      unfold truncKeepGo
      dsimp only
      rw [h0]
      rw [if_pos (by simpa using hav)]
      have e0 : ((0 : Int) + ((0 : Nat) : Int)) = 0 := by norm_num
      rw [e0]
      rw [truncKeepGo_zero available hav rest (msg :: kept)
        (fun m hm => hz m (List.mem_cons_of_mem _ hm))]
      simp

/-- `_truncate_conversation` keeps the whole alternating conversation. -/
theorem truncateConversation_altD (k : Nat) :
    truncateConversation (altD k) MAX_INPUT_TOKENS = altD k := by
  obtain ⟨rest, hr⟩ := altD_cons k
  unfold truncateConversation
  rw [if_neg (by rw [hr]; simp)]
  rw [altD_filter_system k, altD_filter_nonsystem k]
  simp only [List.map_nil, List.sum_nil]
  rw [truncKeepGo_zero _ (by norm_num [MAX_INPUT_TOKENS]) _ _
    (fun m hm => altD_tokens_zero k m (by simpa using hm))]
  simp

/-- C6 (counterexample): a conversation of 106,669 alternating user/assistant
messages of 3 characters each is passed through budgeting unchanged (each
message estimates to 0 tokens), so the prepared messages total 320,007
characters — exceeding the whole-conversation cap
`MAX_INPUT_TOKENS * CHARS_PER_TOKEN = 320,000` even though the truncation
branch was taken. -/
theorem convert_token_budget_cex :
    ((convertMessages (altMsgsC6 53334)).map (fun m => strLen m.content)).sum = 320007 ∧
    MAX_INPUT_TOKENS * CHARS_PER_TOKEN = 320000 := by
  have hfin : enforceAlternation (mergeSameRole (convertStage1 (altMsgsC6 53334) [])) =
      altD 53334 := by
    rw [altMsgs_stage1]
    unfold mergeSameRole
    rw [mergeGo_altD 53334 [] (Or.inl rfl)]
    simp only [List.reverse_nil, List.nil_append]
    exact enforceAlternation_altD 53334
  have hsum : ((altD 53334).map (fun m => strLen m.content)).sum = 320007 := by
    rw [altD_charSum]
  refine ⟨?_, rfl⟩
  unfold convertMessages
  rw [hfin]
  dsimp only
  rw [hsum]
  rw [if_pos (by norm_num [MAX_INPUT_TOKENS, CHARS_PER_TOKEN])]
  rw [truncateConversation_altD 53334, hsum]

/-- Summed per-element floors are at most the floor of the sum. -/
theorem sumDiv_le (l : List Nat) : (l.map (· / CHARS_PER_TOKEN)).sum ≤ l.sum / CHARS_PER_TOKEN := by
  induction l with
  | nil => simp
  | cons a rest ih =>
      simp only [List.map_cons, List.sum_cons]
      calc a / CHARS_PER_TOKEN + (rest.map (· / CHARS_PER_TOKEN)).sum
          ≤ a / CHARS_PER_TOKEN + rest.sum / CHARS_PER_TOKEN := Nat.add_le_add_left ih _
        _ ≤ (a + rest.sum) / CHARS_PER_TOKEN := Nat.add_div_le_add_div a rest.sum _

/-- Estimated tokens of a truncated text: at most the budget plus the
marker's 7 tokens. -/
theorem truncToTokens_tokens (c : String) (mt : Int) (hmt : 0 ≤ mt) :
    (estTokens (truncToTokens c mt) : Int) ≤ mt + 7 := by
  unfold truncToTokens
  dsimp only
  have h4 : (CHARS_PER_TOKEN : Int) = 4 := rfl
  by_cases hle : (strLen c : Int) ≤ mt * (CHARS_PER_TOKEN : Int)
  · rw [if_pos hle]
    rw [h4] at hle
    have : (estTokens c : Int) ≤ mt := by
      unfold estTokens CHARS_PER_TOKEN
      omega
    omega
  · rw [if_neg hle]
    rw [h4] at hle
    push_neg at hle
    have hpos : (0 : Int) ≤ mt * (CHARS_PER_TOKEN : Int) := by
      rw [h4]
      positivity
    have hsc : (strLen c : Int) = (c.data.length : Int) := rfl
    have hslice : strLen (pySliceTo c (mt * (CHARS_PER_TOKEN : Int))) =
        (mt * 4).toNat := by
      unfold pySliceTo strLen
      rw [if_pos hpos]
      simp only [List.length_take]
      rw [h4]
      omega
    have hmarker : strLen ("\n... [truncated due to length]" : String) = 30 := rfl
    have hlen : strLen (pySliceTo c (mt * (CHARS_PER_TOKEN : Int)) ++
        "\n... [truncated due to length]") = (mt * 4).toNat + 30 := by
      unfold strLen at hslice hmarker ⊢
      rw [String.data_append, List.length_append, hslice, hmarker]
    have hest : estTokens (pySliceTo c (mt * (CHARS_PER_TOKEN : Int)) ++
        "\n... [truncated due to length]") = ((mt * 4).toNat + 30) / 4 := by
      unfold estTokens
      rw [hlen]
      rfl
    rw [hest]
    omega

/-- The keep-from-the-end walk never exceeds the available budget. -/
theorem truncKeepGo_bound (available : Int) (hav : 1000 ≤ available) :
    ∀ (xs kept : List DMsg) (current : Int),
      (tokSum kept : Int) = current → current ≤ available →
      (tokSum (truncKeepGo available xs current kept) : Int) ≤ available
  | [], kept, current, hk, hc => by
      unfold truncKeepGo
      rw [hk]
      exact hc
  | msg :: rest, kept, current, hk, hc => by
      unfold truncKeepGo
      dsimp only
      by_cases h1 : current + ((estTokens msg.content : Nat) : Int) ≤ available
      · rw [if_pos h1]
        have hk' : (tokSum (msg :: kept) : Int) = current + (estTokens msg.content : Int) := by
          have hsum : tokSum (msg :: kept) = estTokens msg.content + tokSum kept := by
            simp [tokSum]
          rw [hsum]
          push_cast
          omega
        exact truncKeepGo_bound available hav rest (msg :: kept) _ hk' h1
      · rw [if_neg h1]
        by_cases h2 : 10000 < ((estTokens msg.content : Nat) : Int) ∧ kept = []
        · rw [if_pos h2]
          obtain ⟨-, hke⟩ := h2
          subst hke
          have htr := truncToTokens_tokens msg.content (available - 1000) (by omega)
          simp only [tokSum, List.map_cons, List.map_nil, List.sum_cons, List.sum_nil]
          push_cast
          omega
        · rw [if_neg h2]
          rw [hk]
          exact hc

/-- `_truncate_conversation` at the whole-conversation cap keeps the total
estimated tokens within `MAX_INPUT_TOKENS`, provided the system part is a
single per-message-truncated message. -/
theorem truncateConversation_bound (xs : List DMsg)
    (hcount : (xs.filter (fun m => m.role = "system")).length ≤ 1)
    (hlen : ∀ m ∈ xs.filter (fun m => m.role = "system"), strLen m.content ≤ 20030) :
    tokSum (truncateConversation xs MAX_INPUT_TOKENS) ≤ MAX_INPUT_TOKENS := by
  unfold truncateConversation
  by_cases hemp : xs.isEmpty = true
  · rw [if_pos hemp]
    have : xs = [] := by simpa [List.isEmpty_iff] using hemp
    subst this
    simp [tokSum]
  · rw [if_neg hemp]
    dsimp only
    have hsysTok : tokSum (xs.filter (fun m => m.role = "system")) ≤ 5007 := by
      cases hsys : xs.filter (fun m => m.role = "system") with
      | nil => simp [tokSum]
      | cons a tl =>
          have htl : tl = [] := by
            rw [hsys] at hcount
            simpa using hcount
          subst htl
          have hla := hlen a (by rw [hsys]; exact List.mem_cons_self _ _)
          simp only [tokSum, List.map_cons, List.map_nil, List.sum_cons, List.sum_nil,
            Nat.add_zero]
          unfold estTokens CHARS_PER_TOKEN
          omega
    have hav : 1000 ≤ (MAX_INPUT_TOKENS : Int) -
        ((tokSum (xs.filter (fun m => m.role = "system")) : Nat) : Int) - 5000 := by
      have : (MAX_INPUT_TOKENS : Int) = 80000 := rfl
      omega
    have hkeep := truncKeepGo_bound _ hav
      (xs.filter (fun m => m.role ≠ "system")).reverse [] 0 (by simp [tokSum]) (by omega)
    have hsplit : tokSum ((xs.filter (fun m => m.role = "system")) ++
        truncKeepGo ((MAX_INPUT_TOKENS : Int) -
            ((tokSum (xs.filter (fun m => m.role = "system")) : Nat) : Int) - 5000)
          (xs.filter (fun m => m.role ≠ "system")).reverse 0 []) =
        tokSum (xs.filter (fun m => m.role = "system")) +
        tokSum (truncKeepGo ((MAX_INPUT_TOKENS : Int) -
            ((tokSum (xs.filter (fun m => m.role = "system")) : Nat) : Int) - 5000)
          (xs.filter (fun m => m.role ≠ "system")).reverse 0 []) := by
      simp [tokSum]
    have hmap : ((xs.filter (fun m => m.role = "system")).map
        (fun m => estTokens m.content)).sum =
        tokSum (xs.filter (fun m => m.role = "system")) := rfl
    rw [hmap, hsplit]
    have : (MAX_INPUT_TOKENS : Int) = 80000 := rfl
    omega

/-- The system messages surviving the role loop are exactly the per-message
truncations of the input system messages. -/
theorem convertStage1_filter_system :
    ∀ (msgs : List LLMMessageF) (pending : List String),
      (convertStage1 msgs pending).filter (fun m => m.role = "system") =
        (msgs.filter (fun m => m.role = "system")).map sysTruncMsg
  | [], pending => by
      by_cases hp : pending.isEmpty = true
      · simp [convertStage1, hp]
      · simp [convertStage1, hp]
  | msg :: rest, pending => by
      unfold convertStage1
      dsimp only
      by_cases hS : msg.role = "system"
      · rw [if_pos hS]
        simp only [List.filter_cons, hS]
        simp [convertStage1_filter_system rest pending, sysTruncMsg]
      · rw [if_neg hS]
        by_cases hT : msg.role = "tool"
        · rw [if_pos hT]
          simp only [List.filter_cons, hS]
          simp [hS, convertStage1_filter_system rest]
        · rw [if_neg hT]
          by_cases hA : msg.role = "assistant"
          · rw [if_pos hA]
            have hrec := convertStage1_filter_system rest []
            by_cases hp : pending.isEmpty = true
            · cases htc : msg.toolCalls with
              | none => simp [hp, htc, List.filter_cons, hS, hrec]
              | some tcs =>
                  by_cases hte : tcs.isEmpty
                  · simp [hp, htc, hte, List.filter_cons, hS, hrec]
                  · simp [hp, htc, hte, List.filter_cons, hS, hrec]
            · cases htc : msg.toolCalls with
              | none => simp [hp, htc, List.filter_cons, hS, hrec]
              | some tcs =>
                  by_cases hte : tcs.isEmpty
                  · simp [hp, htc, hte, List.filter_cons, hS, hrec]
                  · simp [hp, htc, hte, List.filter_cons, hS, hrec]
          · rw [if_neg hA]
            by_cases hU : msg.role = "user"
            · rw [if_pos hU]
              have hrec := convertStage1_filter_system rest []
              by_cases hp : pending.isEmpty = true
              · simp [hp, List.filter_cons, hS, hrec]
              · simp [hp, List.filter_cons, hS, hrec]
            · rw [if_neg hU]
              simp only [List.filter_cons, hS]
              simp [hS, convertStage1_filter_system rest pending]

/-- The merge pass preserves the sublist of system messages. -/
theorem mergeGo_filter_system :
    ∀ (xs acc : List DMsg),
      (mergeGo xs acc).filter (fun m => m.role = "system") =
        acc.reverse.filter (fun m => m.role = "system") ++
          xs.filter (fun m => m.role = "system")
  | [], acc => by simp [mergeGo]
  | m :: rest, acc => by
      unfold mergeGo
      cases acc with
      | nil =>
          dsimp only
          rw [mergeGo_filter_system rest [m]]
          simp only [List.reverse_cons, List.reverse_nil, List.nil_append, List.filter_cons,
            List.filter_nil]
          by_cases hm : m.role = "system" <;> simp [hm]
      | cons prev tail =>
          dsimp only
          by_cases hc : prev.role = m.role ∧ m.role ≠ "system"
          · rw [if_pos hc]
            rw [mergeGo_filter_system rest _]
            have hpns : ¬prev.role = "system" := fun h => hc.2 (hc.1 ▸ h)
            have hmns : ¬m.role = "system" := hc.2
            simp [List.filter_cons, List.filter_append, hpns, hmns]
          · rw [if_neg hc]
            rw [mergeGo_filter_system rest _]
            simp only [List.reverse_cons, List.filter_append, List.filter_cons, List.filter_nil]
            by_cases hm : m.role = "system" <;> by_cases hp : prev.role = "system" <;>
              simp [hm, hp]

/-- The alternation loop emits no system-role messages when neither its input
nor its accumulator contains one. -/
theorem alternLoop_no_system :
    ∀ (conv acc : List DMsg) (e : String),
      (∀ m ∈ conv, ¬m.role = "system") → (∀ m ∈ acc, ¬m.role = "system") →
      ∀ m ∈ alternLoop conv acc e, ¬m.role = "system"
  | [], acc, e, _, hacc => by
      intro m hm
      rw [show alternLoop [] acc e = acc.reverse from rfl] at hm
      exact hacc m (by simpa using hm)
  | msg :: rest, acc, e, hconv, hacc => by
      have hm0 : ¬msg.role = "system" := hconv msg (List.mem_cons_self _ _)
      have hrest : ∀ m ∈ rest, ¬m.role = "system" :=
        fun m hm => hconv m (List.mem_cons_of_mem _ hm)
      unfold alternLoop
      by_cases h1 : msg.role = e
      · rw [if_pos h1]
        refine alternLoop_no_system rest _ _ hrest ?_
        intro m hm
        rcases List.mem_cons.mp hm with rfl | hm
        · exact hm0
        · exact hacc m hm
      · rw [if_neg h1]
        cases acc with
        | nil =>
            dsimp only
            by_cases h2 : msg.role = "assistant"
            · rw [if_pos h2]
              refine alternLoop_no_system rest _ _ hrest ?_
              intro m hm
              rcases List.mem_cons.mp hm with rfl | hm
              · exact hm0
              · rcases List.mem_cons.mp hm with rfl | hm
                · simp
                · simp at hm
            · rw [if_neg h2]
              exact alternLoop_no_system rest _ _ hrest (by intro m hm; simp at hm)
        | cons prev tail =>
            dsimp only
            have hprev : ¬prev.role = "system" := hacc prev (List.mem_cons_self _ _)
            have htail : ∀ m ∈ tail, ¬m.role = "system" :=
              fun m hm => hacc m (List.mem_cons_of_mem _ hm)
            by_cases h2 : prev.role = msg.role
            · rw [if_pos h2]
              refine alternLoop_no_system rest _ _ hrest ?_
              intro m hm
              rcases List.mem_cons.mp hm with rfl | hm
              · exact hprev
              · exact htail m hm
            · rw [if_neg h2]
              refine alternLoop_no_system rest _ _ hrest ?_
              intro m hm
              by_cases hc1 : e = "user" ∧ msg.role = "assistant"
              · rw [if_pos hc1] at hm
                rcases List.mem_cons.mp hm with rfl | hm
                · exact hm0
                · rcases List.mem_cons.mp hm with rfl | hm
                  · simp
                  · exact hacc m hm
              · rw [if_neg hc1] at hm
                by_cases hc2 : e = "assistant" ∧ msg.role = "user"
                · rw [if_pos hc2] at hm
                  rcases List.mem_cons.mp hm with rfl | hm
                  · exact hm0
                  · rcases List.mem_cons.mp hm with rfl | hm
                    · simp
                    · exact hacc m hm
                · rw [if_neg hc2] at hm
                  rcases List.mem_cons.mp hm with rfl | hm
                  · exact hm0
                  · exact hacc m hm

/-- `_enforce_alternation` preserves the sublist of system messages. -/
theorem enforceAlternation_filter_system (xs : List DMsg) :
    (enforceAlternation xs).filter (fun m => m.role = "system") =
      xs.filter (fun m => m.role = "system") := by
  unfold enforceAlternation
  by_cases hemp : xs.isEmpty = true
  · rw [if_pos hemp]
  · rw [if_neg hemp]
    dsimp only
    have hsysself : (xs.filter (fun m => m.role = "system")).filter
        (fun m => m.role = "system") = xs.filter (fun m => m.role = "system") := by
      rw [List.filter_eq_self]
      intro m hm
      have := (List.mem_filter.mp hm).2
      simpa using this
    by_cases hconv : (xs.filter (fun m => m.role ≠ "system")).isEmpty = true
    · rw [if_pos hconv]
      exact hsysself
    · rw [if_neg hconv]
      have hnosys : ∀ m ∈ alternLoop (xs.filter (fun m => m.role ≠ "system")) [] "user",
          ¬m.role = "system" := by
        refine alternLoop_no_system _ [] "user" ?_ (by intro m hm; simp at hm)
        intro m hm
        have := (List.mem_filter.mp hm).2
        simpa using this
      have hnosys' : ∀ m ∈ ensureEndsUser
          (alternLoop (xs.filter (fun m => m.role ≠ "system")) [] "user"),
          ¬m.role = "system" := by
        intro m hm
        unfold ensureEndsUser at hm
        cases hq : (alternLoop (xs.filter (fun m => m.role ≠ "system")) [] "user").getLast? with
        | none =>
            rw [hq] at hm
            exact hnosys m hm
        | some lastMsg =>
            rw [hq] at hm
            dsimp only at hm
            by_cases hl : lastMsg.role = "assistant"
            · rw [if_pos hl] at hm
              rcases List.mem_append.mp hm with hm | hm
              · exact hnosys m hm
              · have : m = ⟨"user", "Please continue with the next action."⟩ := by simpa using hm
                subst this
                simp
            · rw [if_neg hl] at hm
              exact hnosys m hm
      rw [List.filter_append, hsysself]
      have : (ensureEndsUser (alternLoop (xs.filter (fun m => m.role ≠ "system")) [] "user")).filter
          (fun m => m.role = "system") = [] := by
        rw [List.filter_eq_nil_iff]
        intro m hm
        simpa using hnosys' m hm
      rw [this, List.append_nil]

/-- Length of a truncated text: at most the character budget plus the
30-character marker. -/
theorem truncToTokens_len (c : String) (mt : Int) (hmt : 0 ≤ mt) :
    (strLen (truncToTokens c mt) : Int) ≤ mt * 4 + 30 := by
  unfold truncToTokens
  dsimp only
  have h4 : (CHARS_PER_TOKEN : Int) = 4 := rfl
  by_cases h2 : (strLen c : Int) ≤ mt * (CHARS_PER_TOKEN : Int)
  · rw [if_pos h2]
    rw [h4] at h2
    omega
  · rw [if_neg h2]
    have hpos : (0 : Int) ≤ mt * (CHARS_PER_TOKEN : Int) := by
      rw [h4]
      positivity
    have hsl : strLen (pySliceTo c (mt * (CHARS_PER_TOKEN : Int))) ≤ (mt * 4).toNat := by
      unfold pySliceTo strLen
      rw [if_pos hpos]
      simp only [List.length_take]
      rw [h4]
      omega
    have hmk : strLen ("\n... [truncated due to length]" : String) = 30 := rfl
    have hap : strLen (pySliceTo c (mt * (CHARS_PER_TOKEN : Int)) ++
        "\n... [truncated due to length]") =
        strLen (pySliceTo c (mt * (CHARS_PER_TOKEN : Int))) + 30 := by
      unfold strLen at hmk ⊢
      rw [String.data_append, List.length_append, hmk]
    rw [hap]
    push_cast
    omega

/-- The per-message-truncated image of a system message has at most 20,030
characters. -/
theorem sysTruncMsg_len (m : LLMMessageF) : strLen (sysTruncMsg m).content ≤ 20030 := by
  unfold sysTruncMsg
  dsimp only
  by_cases h : MAX_CONTENT_CHARS < strLen (m.content.getD "")
  · rw [if_pos h]
    have := truncToTokens_len (m.content.getD "")
      ((MAX_CONTENT_CHARS / CHARS_PER_TOKEN : Nat) : Int) (by positivity)
    have h5 : ((MAX_CONTENT_CHARS / CHARS_PER_TOKEN : Nat) : Int) = 5000 := rfl
    rw [h5] at this ⊢
    omega
  · rw [if_neg h]
    unfold MAX_CONTENT_CHARS at h
    omega

/-- The system part of the fully normalized conversation is the truncated
image of the input system messages. -/
theorem convert_final_filter_system (msgs : List LLMMessageF) :
    (enforceAlternation (mergeSameRole (convertStage1 msgs []))).filter
        (fun m => m.role = "system") =
      (msgs.filter (fun m => m.role = "system")).map sysTruncMsg := by
  rw [enforceAlternation_filter_system]
  unfold mergeSameRole
  rw [mergeGo_filter_system]
  simp [convertStage1_filter_system msgs []]

/-- C6 (amended): for every conversation with at most one system message,
the summed ESTIMATED token count (`len // 4` per message) of the prepared
messages never exceeds `MAX_INPUT_TOKENS`.  (The summed character count can
exceed `MAX_INPUT_TOKENS * CHARS_PER_TOKEN`, and the tools prompt injected
afterwards is not counted — see the counterexample.) -/
theorem convertMessages_token_bound (msgs : List LLMMessageF)
    (hsys : (msgs.filter (fun m => m.role = "system")).length ≤ 1) :
    tokSum (convertMessages msgs) ≤ MAX_INPUT_TOKENS := by
  unfold convertMessages
  dsimp only
  by_cases hcap : MAX_INPUT_TOKENS * CHARS_PER_TOKEN <
      ((enforceAlternation (mergeSameRole (convertStage1 msgs []))).map
        (fun m => strLen m.content)).sum
  · rw [if_pos hcap]
    refine truncateConversation_bound _ ?_ ?_
    · rw [convert_final_filter_system]
      simpa using hsys
    · intro m hm
      rw [convert_final_filter_system] at hm
      obtain ⟨m', hm', rfl⟩ := List.mem_map.mp hm
      exact sysTruncMsg_len m'
  · rw [if_neg hcap]
    push_neg at hcap
    have h1 : tokSum (enforceAlternation (mergeSameRole (convertStage1 msgs []))) =
        (((enforceAlternation (mergeSameRole (convertStage1 msgs []))).map
          (fun m => strLen m.content)).map (· / CHARS_PER_TOKEN)).sum := by
      simp only [tokSum, estTokens, List.map_map]
      rfl
    rw [h1]
    calc (((enforceAlternation (mergeSameRole (convertStage1 msgs []))).map
          (fun m => strLen m.content)).map (· / CHARS_PER_TOKEN)).sum
        ≤ ((enforceAlternation (mergeSameRole (convertStage1 msgs []))).map
            (fun m => strLen m.content)).sum / CHARS_PER_TOKEN := sumDiv_le _
      _ ≤ MAX_INPUT_TOKENS * CHARS_PER_TOKEN / CHARS_PER_TOKEN :=
          Nat.div_le_div_right hcap
      _ = MAX_INPUT_TOKENS := by rfl

/-- Witness for `convertMessages_token_bound` at a concrete mixed
conversation with one system message. -/
theorem convertMessages_token_bound_witness :
    tokSum (convertMessages budgetMsgsW) ≤ MAX_INPUT_TOKENS :=
  convertMessages_token_bound budgetMsgsW (by decide)

/-! ### The agent run loop: C1 and C2 -/

/-- Per-tool-call loop body: it yields no recovery log and no completion event, never flips `task_complete`, and only appends to the history. -/
theorem execOneTool_master (c : Option String) (tc : ToolCallF) (env : ToolEnv)
    (st : AgentState) :
    (execOneTool c tc env st).1.any isRecoveryLog = false ∧
    (execOneTool c tc env st).1.any isCompleteSuccess = false ∧
    (execOneTool c tc env st).2.taskComplete = st.taskComplete ∧
    ∃ tl, (execOneTool c tc env st).2.history = st.history ++ tl := by
  rcases env with ⟨beh, shot⟩
  refine ⟨?_, ?_, ?_, ?_⟩ <;> unfold execOneTool <;> cases shot <;> dsimp only <;>
    split_ifs <;> first | rfl | exact ⟨_, rfl⟩

/-- The tool-execution loop preserves `task_complete`, extends the history, and yields neither recovery logs nor completion events. -/
theorem execTools_master (c : Option String) :
    ∀ (tcs : List ToolCallF) (envs : List ToolEnv) (st : AgentState),
    (execTools c tcs envs st).1.any isRecoveryLog = false ∧
    (execTools c tcs envs st).1.any isCompleteSuccess = false ∧
    (execTools c tcs envs st).2.taskComplete = st.taskComplete ∧
    ∃ tl, (execTools c tcs envs st).2.history = st.history ++ tl
  | [], envs, st => ⟨rfl, rfl, rfl, [], by simp [execTools]⟩
  | tc :: rest, envs, st => by
      obtain ⟨h1, h2, h3, tl1, h4⟩ := execOneTool_master c tc (envs.headD defaultToolEnv) st
      obtain ⟨g1, g2, g3, tl2, g4⟩ :=
        execTools_master c rest envs.tail (execOneTool c tc (envs.headD defaultToolEnv) st).2
      refine ⟨?_, ?_, ?_, tl1 ++ tl2, ?_⟩
      · show ((execOneTool c tc (envs.headD defaultToolEnv) st).1 ++
          (execTools c rest envs.tail (execOneTool c tc (envs.headD defaultToolEnv) st).2).1).any
            isRecoveryLog = false
        rw [List.any_append, h1, g1]; rfl
      · show ((execOneTool c tc (envs.headD defaultToolEnv) st).1 ++
          (execTools c rest envs.tail (execOneTool c tc (envs.headD defaultToolEnv) st).2).1).any
            isCompleteSuccess = false
        rw [List.any_append, h2, g2]; rfl
      · show (execTools c rest envs.tail (execOneTool c tc (envs.headD defaultToolEnv) st).2).2.taskComplete
          = st.taskComplete
        rw [g3, h3]
      · show (execTools c rest envs.tail (execOneTool c tc (envs.headD defaultToolEnv) st).2).2.history
          = st.history ++ (tl1 ++ tl2)
        rw [g4, h4, List.append_assoc]

/-- Same facts for the assistant-message-plus-execution step. -/
theorem runCalls_master (c : Option String) (unique : List ToolCallF)
    (execs : List ToolEnv) (st : AgentState) :
    (runCalls c unique execs st).1.any isRecoveryLog = false ∧
    (runCalls c unique execs st).1.any isCompleteSuccess = false ∧
    (runCalls c unique execs st).2.taskComplete = st.taskComplete ∧
    ∃ tl, (runCalls c unique execs st).2.history = st.history ++ tl :=
  execTools_master c unique execs
    { st with messages := st.messages ++
        [{ role := "assistant", content := c, toolCalls := Option.some unique }] }

/-- A tool-call turn yields no recovery log (the stuck counter is reset to 0 at line 505 before the increment at line 518, so the `>= 3` recovery branch is unreachable) and no completion event, never flips `task_complete`, and only appends to the history. -/
theorem processToolTurn_master (c : Option String) (tcs : List ToolCallF)
    (execs : List ToolEnv) (st : AgentState) :
    (processToolTurn c tcs execs st).1.any isRecoveryLog = false ∧
    (processToolTurn c tcs execs st).1.any isCompleteSuccess = false ∧
    (processToolTurn c tcs execs st).2.taskComplete = st.taskComplete ∧
    ∃ tl, (processToolTurn c tcs execs st).2.history = st.history ++ tl := by
  unfold processToolTurn
  rcases hdl : dedupToolCalls tcs with _ | ⟨tc, _ | ⟨tc2, more⟩⟩
  · dsimp only
    exact runCalls_master c _ execs _
  · dsimp only
    by_cases hk : st.lastToolKey = Option.some (toolKey tc)
    · rw [if_pos hk, if_neg (by decide : ¬ ((3 : Nat) ≤ 0 + 1))]
      exact runCalls_master c _ execs _
    · rw [if_neg hk]
      exact runCalls_master c _ execs _
  · dsimp only
    exact runCalls_master c _ execs _

/-- A no-tool-call turn yields no recovery log and no completion event, leaves the history unchanged, and sets `task_complete` only for a truthy response in strict `TASK_COMPLETE` form when the history already holds an error-free actionable step. -/
theorem processNoToolTurn_master (c : Option String) (st : AgentState) :
    (processNoToolTurn c st).1.any isRecoveryLog = false ∧
    (processNoToolTurn c st).1.any isCompleteSuccess = false ∧
    (processNoToolTurn c st).2.1.history = st.history ∧
    ((processNoToolTurn c st).2.1.taskComplete = true →
      st.taskComplete = true ∨
      (optTruthy c = true ∧ isTaskCompleteStr (pyUpper (pyStrip (c.getD ""))) = true ∧
       st.history.any actionableStep = true)) := by
  unfold processNoToolTurn
  dsimp only
  split_ifs with h5 hct htc hact hmix hcont
  all_goals first
    | exact ⟨rfl, rfl, rfl, fun h => Or.inl h⟩
    | exact ⟨rfl, rfl, rfl, fun _ => Or.inr ⟨by assumption, by assumption, by assumption⟩⟩


/-- One loop turn: no recovery log, no completion event, history only extended, and `task_complete` becomes true only on a strict-completion turn with an actionable error-free step in the resulting history. -/
theorem processTurn_master (turn : TurnIn) (st : AgentState) :
    (processTurn turn st).1.any isRecoveryLog = false ∧
    (processTurn turn st).1.any isCompleteSuccess = false ∧
    (∃ tl, (processTurn turn st).2.1.history = st.history ++ tl) ∧
    ((processTurn turn st).2.1.taskComplete = true →
      st.taskComplete = true ∨
      (strictCompleteTurn turn = true ∧
       (processTurn turn st).2.1.history.any actionableStep = true)) := by
  cases turn with
  | llmErr m => exact ⟨rfl, rfl, ⟨[], by rw [List.append_nil]; rfl⟩, fun h => Or.inl h⟩
  | resp c tcs execs =>
      unfold processTurn
      dsimp only
      have hnt :
          ∀ ev0 : List AgEvent, ev0.any isRecoveryLog = false →
            ev0.any isCompleteSuccess = false →
          ((ev0 ++ (processNoToolTurn c st).1).any isRecoveryLog = false ∧
           (ev0 ++ (processNoToolTurn c st).1).any isCompleteSuccess = false ∧
           (∃ tl, (processNoToolTurn c st).2.1.history = st.history ++ tl) ∧
           ((processNoToolTurn c st).2.1.taskComplete = true →
             st.taskComplete = true ∨
             (strictCompleteTurn (TurnIn.resp c tcs execs) = true ∧
              (processNoToolTurn c st).2.1.history.any actionableStep = true))) := by
        intro ev0 he1 he2
        obtain ⟨n1, n2, n3, n4⟩ := processNoToolTurn_master c st
        refine ⟨?_, ?_, ⟨[], by rw [n3, List.append_nil]⟩, ?_⟩
        · rw [List.any_append, he1, n1]; rfl
        · rw [List.any_append, he2, n2]; rfl
        · intro h
          rcases n4 h with h' | ⟨ht, hs, ha⟩
          · exact Or.inl h'
          · refine Or.inr ⟨?_, ?_⟩
            · cases c with
              | none => exact absurd ht (by decide)
              | some s => exact hs
            · rw [n3]; exact ha
      have hev0R : (if optTruthy c = true then
          [AgEvent.log ("Agent: " ++ pySliceTo (c.getD "") 500)] else ([] : List AgEvent)).any
            isRecoveryLog = false := by split_ifs <;> rfl
      have hev0C : (if optTruthy c = true then
          [AgEvent.log ("Agent: " ++ pySliceTo (c.getD "") 500)] else ([] : List AgEvent)).any
            isCompleteSuccess = false := by split_ifs <;> rfl
      cases tcs with
      | none => exact hnt _ hev0R hev0C
      | some l =>
          dsimp only
          by_cases he : l.isEmpty
          · rw [if_pos he]
            exact hnt _ hev0R hev0C
          · rw [if_neg he]
            obtain ⟨t1, t2, t3, tl, t4⟩ := processToolTurn_master c l execs st
            refine ⟨?_, ?_, ⟨tl, t4⟩, ?_⟩
            · rw [List.any_append, hev0R, t1]; rfl
            · rw [List.any_append, hev0C, t2]; rfl
            · intro h
              exact Or.inl (by rw [← t3]; exact h)

/-- The loop events contain no recovery log and no successful-completion event (the latter is emitted only after the loop). -/
theorem agentLoopGo_events (script : Nat → TurnIn) (maxSteps : Nat) :
    ∀ (fuel : Nat) (st : AgentState),
    (agentLoopGo script maxSteps fuel st).1.any isRecoveryLog = false ∧
    (agentLoopGo script maxSteps fuel st).1.any isCompleteSuccess = false
  | 0, st => ⟨rfl, rfl⟩
  | fuel + 1, st => by
      unfold agentLoopGo
      by_cases hg : st.stepCount < maxSteps ∧ ¬ st.taskComplete = true
      · rw [if_pos hg]
        dsimp only
        obtain ⟨p1, p2, _, _⟩ :=
          processTurn_master (script st.stepCount) { st with stepCount := st.stepCount + 1 }
        obtain ⟨q1, q2⟩ := agentLoopGo_events script maxSteps fuel
          (processTurn (script st.stepCount) { st with stepCount := st.stepCount + 1 }).2.1
        by_cases hb : (processTurn (script st.stepCount)
            { st with stepCount := st.stepCount + 1 }).2.2 = true
        · rw [if_pos hb]
          constructor
          · rw [List.any_append, p1]
            rfl
          · rw [List.any_append, p2]
            rfl
        · rw [if_neg hb]
          constructor
          · rw [List.any_append, List.any_append, p1, q1]
            rfl
          · rw [List.any_append, List.any_append, p2, q2]
            rfl
      · rw [if_neg hg]
        exact ⟨rfl, rfl⟩

/-- Loop invariant: once `task_complete` holds, some turn of the script within the step budget was a strict `TASK_COMPLETE` response and the history holds an error-free actionable step. -/
theorem agentLoopGo_inv (script : Nat → TurnIn) (maxSteps : Nat) :
    ∀ (fuel : Nat) (st : AgentState),
    (st.taskComplete = true →
      (∃ n, n < maxSteps ∧ strictCompleteTurn (script n) = true) ∧
      st.history.any actionableStep = true) →
    ((agentLoopGo script maxSteps fuel st).2.taskComplete = true →
      (∃ n, n < maxSteps ∧ strictCompleteTurn (script n) = true) ∧
      (agentLoopGo script maxSteps fuel st).2.history.any actionableStep = true)
  | 0, st, h => h
  | fuel + 1, st, h => by
      unfold agentLoopGo
      by_cases hg : st.stepCount < maxSteps ∧ ¬ st.taskComplete = true
      · rw [if_pos hg]
        dsimp only
        obtain ⟨_, _, ⟨tl, hh⟩, hprov⟩ :=
          processTurn_master (script st.stepCount) { st with stepCount := st.stepCount + 1 }
        have hInv2 : (processTurn (script st.stepCount)
              { st with stepCount := st.stepCount + 1 }).2.1.taskComplete = true →
            (∃ n, n < maxSteps ∧ strictCompleteTurn (script n) = true) ∧
            (processTurn (script st.stepCount)
              { st with stepCount := st.stepCount + 1 }).2.1.history.any actionableStep = true := by
          intro hc
          rcases hprov hc with hold | ⟨hstrict, hany⟩
          · exact absurd hold hg.2
          · exact ⟨⟨st.stepCount, hg.1, hstrict⟩, hany⟩
        by_cases hb : (processTurn (script st.stepCount)
            { st with stepCount := st.stepCount + 1 }).2.2 = true
        · rw [if_pos hb]
          exact hInv2
        · rw [if_neg hb]
          exact agentLoopGo_inv script maxSteps fuel _ hInv2
      · rw [if_neg hg]
        exact h

/-- Log events are never the successful-completion event. -/
theorem isCS_log (m : String) : isCompleteSuccess (AgEvent.log m) = false := rfl

/-- The code event is never the successful-completion event. -/
theorem isCS_code (s : String) : isCompleteSuccess (AgEvent.code s) = false := rfl

/-- The max-steps completion event is not the successful one. -/
theorem isCS_reached (s : String) (k : Nat) :
    isCompleteSuccess (AgEvent.complete ("Reached maximum steps (" ++ s ++ ")") k) = false := rfl

/-- The stopped completion event is not the successful one. -/
theorem isCS_stopped (k : Nat) : isCompleteSuccess (AgEvent.complete "Agent stopped" k) = false := rfl

/-- C1: for every run, the terminal event `Task completed successfully` is
emitted only if (a) some LLM response of the script, stripped and upper-cased,
equals `TASK_COMPLETE` or starts with `TASK_COMPLETE` at fewer than 50
characters, and (b) the run's history contains an error-free `AgentStep` whose
tool is in \{click, fill, submit, press_key, check, select_option\}; a
response merely mentioning `TASK_COMPLETE` without the strict form never
terminates the run (contrapositive of (a)). -/
theorem agentRun_complete_spec (script : Nat → TurnIn) (maxSteps : Nat)
    (lang : LanguageF) (task url : String) (ms : List LLMMessageF) (ts : List TaskStepA)
    (h : (agentRunLoop script maxSteps lang task url
        (initAgentState ms ts)).1.any isCompleteSuccess = true) :
    (∃ n, n < maxSteps ∧ strictCompleteTurn (script n) = true) ∧
    (agentRunLoop script maxSteps lang task url
      (initAgentState ms ts)).2.history.any actionableStep = true := by
  have hinv := agentLoopGo_inv script maxSteps maxSteps (initAgentState ms ts)
    (fun hc => nomatch hc)
  have hev := agentLoopGo_events script maxSteps maxSteps (initAgentState ms ts)
  by_cases hc : (agentLoopGo script maxSteps maxSteps
      (initAgentState ms ts)).2.taskComplete = true
  · exact hinv hc
  · exfalso
    revert h
    unfold agentRunLoop
    dsimp only
    rw [if_neg hc]
    rw [List.any_append, List.any_append, List.any_append, hev.2]
    by_cases hms : maxSteps ≤ (agentLoopGo script maxSteps maxSteps
        (initAgentState ms ts)).2.stepCount
    · rw [if_pos hms]
      intro hfalse
      simp only [List.any_cons, List.any_nil, isCS_code, isCS_log] at hfalse
      rw [isCS_reached] at hfalse
      simp at hfalse
    · rw [if_neg hms]
      intro hfalse
      simp only [List.any_cons, List.any_nil, isCS_code, isCS_log, isCS_stopped] at hfalse
      simp at hfalse

/-- The code event is never the recovery log. -/
theorem isRL_code (s : String) : isRecoveryLog (AgEvent.code s) = false := rfl

/-- Completion events are never the recovery log. -/
theorem isRL_complete (m : String) (k : Nat) : isRecoveryLog (AgEvent.complete m k) = false := rfl

/-- The browser-closed log is not the recovery log. -/
theorem isRL_browser : isRecoveryLog (AgEvent.log "Browser closed") = false := rfl

/-- Witness for C1: the two-turn script with one successful click and then a bare `TASK_COMPLETE` completes, and the theorem applies to it. -/
theorem agentRun_complete_spec_witness :
    (agentRunLoop scriptW 3 LanguageF.typescript "t" "https://x.test"
      (initAgentState [] [])).1.any isCompleteSuccess = true ∧
    ((∃ n, n < 3 ∧ strictCompleteTurn (scriptW n) = true) ∧
     (agentRunLoop scriptW 3 LanguageF.typescript "t" "https://x.test"
       (initAgentState [] [])).2.history.any actionableStep = true) :=
  ⟨rfl, agentRun_complete_spec scriptW 3 LanguageF.typescript "t" "https://x.test" [] [] rfl⟩

/-- C2 (code bug): with the identical single tool call returned every turn
(five turns in a row), no recovery log is emitted, the corrective user message
is never appended, and the stuck counter ends at 1; in fact no run from any
initial state ever emits the recovery log, because `_stuck_count` is reset to
0 at the start of every tool-call turn (line 505) before the increment
(line 518), so the `>= 3` branch (lines 520-527) is dead code. -/
theorem agentLoop_stuck_dead :
    ((agentRunLoop scriptRep 5 LanguageF.typescript "t" "https://x.test"
        (initAgentState [] [])).1.any isRecoveryLog = false ∧
     (agentRunLoop scriptRep 5 LanguageF.typescript "t" "https://x.test"
        (initAgentState [] [])).2.messages.any isCorrectiveMsg = false ∧
     (agentRunLoop scriptRep 5 LanguageF.typescript "t" "https://x.test"
        (initAgentState [] [])).2.stuckCount = 1) ∧
    ∀ (script : Nat → TurnIn) (maxSteps : Nat) (lang : LanguageF) (task url : String)
      (st0 : AgentState),
      (agentRunLoop script maxSteps lang task url st0).1.any isRecoveryLog = false := by
  constructor
  · exact ⟨rfl, rfl, rfl⟩
  · intro script maxSteps lang task url st0
    have hev := agentLoopGo_events script maxSteps maxSteps st0
    unfold agentRunLoop
    dsimp only
    rw [List.any_append, List.any_append, List.any_append, hev.1]
    split_ifs <;>
      simp only [List.any_cons, List.any_nil, isRL_code, isRL_complete, isRL_browser,
        Bool.or_false, Bool.false_or]

/-! ### The text-protocol extractor: C5 -/

/-- A regex word character is not a regex space character. -/
theorem word_not_space (c : Char) (h : isWordChar c = true) : isReSpace c = false := by
  by_contra hs
  rw [Bool.not_eq_false] at hs
  simp only [isReSpace, Bool.or_eq_true, decide_eq_true_eq] at hs
  rcases hs with ((((h1 | h1) | h1) | h1) | h1) | h1 <;> subst h1 <;> revert h <;> decide

/-- Greedy munch stops at a non-matching head. -/
theorem munch_cons_neg (p : Char → Bool) (c : Char) (r : List Char) (h : p c = false) :
    munch p (c :: r) = ([], c :: r) := by
  simp [munch, h]

/-- Greedy munch consumes exactly a run of matching characters. -/
theorem munch_all_append (p : Char → Bool) (y : Char) (r : List Char) (hy : p y = false) :
    ∀ xs : List Char, xs.all p = true → munch p (xs ++ y :: r) = (xs, y :: r)
  | [], _ => munch_cons_neg p y r hy
  | x :: xs, h => by
      have hx : p x = true := by
        have := h
        simp only [List.all_cons, Bool.and_eq_true] at this
        exact this.1
      have hxs : xs.all p = true := by
        have := h
        simp only [List.all_cons, Bool.and_eq_true] at this
        exact this.2
      simp [munch, hx, munch_all_append p y r hy xs hxs]

/-- Munch splits its input. -/
theorem munch_length (p : Char → Bool) :
    ∀ cs : List Char, (munch p cs).1.length + (munch p cs).2.length = cs.length
  | [] => rfl
  | c :: r => by
      by_cases hc : p c = true
      · simp only [munch, hc, if_true]
        have := munch_length p r
        simp only [List.length_cons]
        omega
      · rw [Bool.not_eq_true] at hc
        rw [munch_cons_neg p c r hc]
        simp

/-- A successful case-insensitive literal match consumes the pattern length. -/
theorem ciPrefix_length :
    ∀ (p cs r : List Char), ciPrefix p cs = Option.some r → r.length + p.length = cs.length
  | [], cs, r, h => by
      simp only [ciPrefix] at h
      cases h
      simp
  | _ :: _, [], r, h => by simp [ciPrefix] at h
  | p :: ps, c :: cs, r, h => by
      simp only [ciPrefix] at h
      split_ifs at h
      have := ciPrefix_length ps cs r h
      simp only [List.length_cons]
      omega

/-- A successful `TOOL_CALL` match consumes at least one character. -/
theorem matchToolCallAt_shrinks (cs : List Char) (nm : String) (rest : List Char) (len : Nat)
    (h : matchToolCallAt cs = Option.some (nm, rest, len)) : rest.length < cs.length := by
  unfold matchToolCallAt at h
  rcases hp : ciPrefix tcPat cs with _ | r1
  · rw [hp] at h; cases h
  · rw [hp] at h
    dsimp only at h
    have hl1 := ciPrefix_length tcPat cs r1 hp
    have hm1 := munch_length isReSpace r1
    rcases hm : (munch isReSpace r1).2 with _ | ⟨c, r3⟩
    · rw [hm] at h; cases h
    · rw [hm] at h
      dsimp only at h
      split_ifs at h
      have hm2 := munch_length isWordChar r3
      cases h
      have : r3.length < cs.length := by
        rw [hm] at hm1
        simp only [List.length_cons] at hm1
        have : tcPat.length = 10 := rfl
        omega
      omega

/-- The scanner finds nothing in the empty input. -/
theorem ftcGo_nil : ∀ g : Nat, findToolCallsGo g [] = []
  | 0 => rfl
  | _ + 1 => rfl

/-- Scanner step equation at a match position. -/
theorem ftcGo_succ_match (f : Nat) (c : Char) (t : List Char) (nm : String)
    (rest : List Char) (len : Nat)
    (h : matchToolCallAt (c :: t) = Option.some (nm, rest, len)) :
    findToolCallsGo (f + 1) (c :: t) =
      (nm, len) :: (findToolCallsGo f rest).map (fun q => (q.1, len + q.2)) := by
  show (match matchToolCallAt (c :: t) with
    | Option.some (nm, rest, len) =>
        (nm, len) :: (findToolCallsGo f rest).map (fun q => (q.1, len + q.2))
    | Option.none => (findToolCallsGo f t).map (fun q => (q.1, 1 + q.2))) =
      (nm, len) :: (findToolCallsGo f rest).map (fun q => (q.1, len + q.2))
  rw [h]

/-- Scanner step equation at a non-match position. -/
theorem ftcGo_succ_none (f : Nat) (c : Char) (t : List Char)
    (h : matchToolCallAt (c :: t) = Option.none) :
    findToolCallsGo (f + 1) (c :: t) =
      (findToolCallsGo f t).map (fun q => (q.1, 1 + q.2)) := by
  show (match matchToolCallAt (c :: t) with
    | Option.some (nm, rest, len) =>
        (nm, len) :: (findToolCallsGo f rest).map (fun q => (q.1, len + q.2))
    | Option.none => (findToolCallsGo f t).map (fun q => (q.1, 1 + q.2))) =
      (findToolCallsGo f t).map (fun q => (q.1, 1 + q.2))
  rw [h]

/-- The scanner result does not depend on the fuel once it covers the input. -/
theorem ftcGo_fuel :
    ∀ (f g : Nat) (cs : List Char), cs.length ≤ f → cs.length ≤ g →
      findToolCallsGo f cs = findToolCallsGo g cs
  | 0, g, cs, hf, _ => by
      have : cs = [] := List.eq_nil_of_length_eq_zero (Nat.le_zero.mp hf)
      subst this
      rw [ftcGo_nil, ftcGo_nil]
  | _ + 1, 0, cs, _, hg => by
      have : cs = [] := List.eq_nil_of_length_eq_zero (Nat.le_zero.mp hg)
      subst this
      rw [ftcGo_nil, ftcGo_nil]
  | f + 1, g + 1, cs, hf, hg => by
      rcases cs with _ | ⟨c, t⟩
      · rw [ftcGo_nil, ftcGo_nil]
      · rcases hm : matchToolCallAt (c :: t) with _ | ⟨nm, rest, len⟩
        · rw [ftcGo_succ_none f c t hm, ftcGo_succ_none g c t hm]
          have ht : t.length ≤ f := by simp only [List.length_cons] at hf; omega
          have ht2 : t.length ≤ g := by simp only [List.length_cons] at hg; omega
          rw [ftcGo_fuel f g t ht ht2]
        · rw [ftcGo_succ_match f c t nm rest len hm, ftcGo_succ_match g c t nm rest len hm]
          have hr := matchToolCallAt_shrinks (c :: t) nm rest len hm
          simp only [List.length_cons] at hf hg hr
          have h1 : rest.length ≤ f := by omega
          have h2 : rest.length ≤ g := by omega
          rw [ftcGo_fuel f g rest h1 h2]

/-- Greedy munch consumes a matching head. -/
theorem munch_cons_pos (p : Char → Bool) (c : Char) (r : List Char) (h : p c = true) :
    munch p (c :: r) = (c :: (munch p r).1, (munch p r).2) := by
  simp [munch, h]

/-- The anchored match on a canonical `TOOL_CALL: name\n...` reply head. -/
theorem matchTC_canonical (nc : Char) (ncs tail : List Char)
    (h1 : isWordChar nc = true) (h2 : ncs.all isWordChar = true) :
    matchToolCallAt ("TOOL_CALL: ".data ++ (nc :: ncs) ++ Char.ofNat 10 :: tail) =
      Option.some (String.mk (nc :: ncs), Char.ofNat 10 :: tail, 12 + ncs.length) := by
  unfold matchToolCallAt
  rw [show ciPrefix tcPat ("TOOL_CALL: ".data ++ (nc :: ncs) ++ Char.ofNat 10 :: tail) =
    Option.some (' ' :: (nc :: (ncs ++ Char.ofNat 10 :: tail))) from rfl]
  dsimp only
  rw [munch_cons_pos isReSpace ' ' _ (by decide),
    munch_cons_neg isReSpace nc _ (word_not_space nc h1)]
  dsimp only
  rw [if_pos h1, munch_all_append isWordChar (Char.ofNat 10) tail (by decide) ncs h2]
  dsimp only
  norm_num

/-- The extractor on a canonical reply `TOOL_CALL: <name>\nARGUMENTS: <json>`:
when the name is made of word characters, the JSON object text brace-matches
to its own end, parses to `d`, and the rest of the reply holds no further
`TOOL_CALL` pattern, the result is the single tool call `(name, d)`. -/
theorem extractToolCalls_canonical (name jstr : String) (d : List (String × PyVal))
    (hne : name.data ≠ [])
    (hword : name.data.all isWordChar = true)
    (hjhead : jstr.data.head? = Option.some '{')
    (hbrace : braceLoop jstr.data 0 false false 0 = Option.some jstr.data.length)
    (hparse : jsonLoads jstr = Option.some (PyVal.dict d))
    (hrest : findToolCallsGo ("\nARGUMENTS: " ++ jstr).data.length
      ("\nARGUMENTS: " ++ jstr).data = []) :
    extractToolCalls ("TOOL_CALL: " ++ name ++ "\nARGUMENTS: " ++ jstr) =
      Option.some [⟨"", name, d⟩] := by
  rcases hnd : name.data with _ | ⟨nc, ncs⟩
  · exact absurd hnd hne
  have hw := hword
  rw [hnd, List.all_cons, Bool.and_eq_true] at hw
  obtain ⟨h1, h2⟩ := hw
  rcases hj : jstr.data with _ | ⟨jc, j2⟩
  · rw [hj] at hjhead; cases hjhead
  have hjc : jc = '{' := by
    rw [hj] at hjhead
    simpa using hjhead
  subst hjc
  have hdata : ("TOOL_CALL: " ++ name ++ "\nARGUMENTS: " ++ jstr).data =
      "TOOL_CALL: ".data ++ (nc :: ncs) ++
        Char.ofNat 10 :: ("ARGUMENTS: ".data ++ jstr.data) := by
    have e1 : ("TOOL_CALL: " ++ name ++ "\nARGUMENTS: " ++ jstr).data
        = "TOOL_CALL: ".data ++ name.data ++ ("\nARGUMENTS: ".data ++ jstr.data) := by
      simp [String.data_append, List.append_assoc]
    rw [e1, hnd]
    rfl
  have htail : ("\nARGUMENTS: " ++ jstr).data =
      Char.ofNat 10 :: ("ARGUMENTS: ".data ++ jstr.data) := by
    rw [String.data_append]
    rfl
  have hlen : ("TOOL_CALL: " ++ name ++ "\nARGUMENTS: " ++ jstr).data.length =
      12 + ncs.length + ("ARGUMENTS: ".data ++ jstr.data).length + 1 := by
    rw [hdata]
    simp only [List.length_append, List.length_cons]
    norm_num
    omega
  obtain ⟨F, hF⟩ : ∃ F, ("TOOL_CALL: " ++ name ++ "\nARGUMENTS: " ++ jstr).data.length = F + 1 :=
    ⟨_, by rw [hlen]⟩
  have hFtail : Char.ofNat 10 :: ("ARGUMENTS: ".data ++ jstr.data) =
      ("\nARGUMENTS: " ++ jstr).data := htail.symm
  have hm := matchTC_canonical nc ncs ("ARGUMENTS: ".data ++ jstr.data) h1 h2
  have hmk : String.mk (nc :: ncs) = name := by rw [← hnd]
  have hscan : findToolCallsGo ("TOOL_CALL: " ++ name ++ "\nARGUMENTS: " ++ jstr).data.length
      ("TOOL_CALL: " ++ name ++ "\nARGUMENTS: " ++ jstr).data = [(name, 12 + ncs.length)] := by
    rw [hF, hdata]
    rw [show ("TOOL_CALL: ".data ++ (nc :: ncs) ++
        Char.ofNat 10 :: ("ARGUMENTS: ".data ++ jstr.data) : List Char) =
      'T' :: ("OOL_CALL: ".data ++ (nc :: ncs) ++
        Char.ofNat 10 :: ("ARGUMENTS: ".data ++ jstr.data)) from rfl]
    have hm2 : matchToolCallAt ('T' :: ("OOL_CALL: ".data ++ (nc :: ncs) ++
        Char.ofNat 10 :: ("ARGUMENTS: ".data ++ jstr.data))) =
        Option.some (String.mk (nc :: ncs),
          Char.ofNat 10 :: ("ARGUMENTS: ".data ++ jstr.data), 12 + ncs.length) := hm
    rw [ftcGo_succ_match F 'T'
      ("OOL_CALL: ".data ++ (nc :: ncs) ++ Char.ofNat 10 :: ("ARGUMENTS: ".data ++ jstr.data))
      (String.mk (nc :: ncs)) (Char.ofNat 10 :: ("ARGUMENTS: ".data ++ jstr.data))
      (12 + ncs.length) hm2]
    rw [hmk]
    have hb1 : (Char.ofNat 10 :: ("ARGUMENTS: ".data ++ jstr.data)).length ≤ F := by
      have e : (Char.ofNat 10 :: ("ARGUMENTS: ".data ++ jstr.data)).length =
          12 + jstr.data.length := by
        simp [List.length_append]
        omega
      have h3 : F + 1 = 12 + ncs.length + ("ARGUMENTS: ".data ++ jstr.data).length + 1 := by
        rw [← hF, hlen]
      have e2 : ("ARGUMENTS: ".data ++ jstr.data).length = 11 + jstr.data.length := by
        simp [List.length_append]
        omega
      rw [e]
      rw [e2] at h3
      omega
    rw [ftcGo_fuel F (Char.ofNat 10 :: ("ARGUMENTS: ".data ++ jstr.data)).length _ hb1 (Nat.le_refl _)]
    rw [hFtail]
    rw [hrest]
    rfl
  have hL1 : ("TOOL_CALL: ".data ++ (nc :: ncs)).length = 12 + ncs.length := by
    simp [List.length_append]
    omega
  have hdrop1 : ("TOOL_CALL: " ++ name ++ "\nARGUMENTS: " ++ jstr).data.drop (12 + ncs.length) =
      Char.ofNat 10 :: ("ARGUMENTS: ".data ++ jstr.data) := by
    rw [hdata, ← hL1, List.drop_left]
  have hrem : (Char.ofNat 10 :: ("ARGUMENTS: ".data ++ jstr.data)).take 500 =
      Char.ofNat 10 :: ("ARGUMENTS: ".data ++ ('{' :: List.take 487 j2)) := by
    rw [show (500 : Nat) = 499 + 1 from rfl, List.take_succ_cons]
    congr 1
    rw [List.take_append_eq_append_take]
    rw [List.take_of_length_le (by simp : ("ARGUMENTS: ".data).length ≤ 499)]
    congr 1
    rw [show (499 : Nat) - ("ARGUMENTS: ".data).length = 488 from by simp, hj]
    rfl
  have hargs : ∀ X : List Char,
      findArgsGo (Char.ofNat 10 :: ("ARGUMENTS: ".data ++ ('{' :: X))).length
        (Char.ofNat 10 :: ("ARGUMENTS: ".data ++ ('{' :: X))) 0 = Option.some 12 :=
    fun X => rfl
  have hL2 : (("TOOL_CALL: ".data ++ (nc :: ncs)) ++
      (Char.ofNat 10 :: "ARGUMENTS: ".data)).length = 12 + ncs.length + 12 := by
    simp [List.length_append]
    omega
  have hdrop2 : ("TOOL_CALL: " ++ name ++ "\nARGUMENTS: " ++ jstr).data.drop
      (12 + ncs.length + 12) = jstr.data := by
    rw [hdata]
    rw [show ("TOOL_CALL: ".data ++ (nc :: ncs) ++
        Char.ofNat 10 :: ("ARGUMENTS: ".data ++ jstr.data) : List Char) =
      (("TOOL_CALL: ".data ++ (nc :: ncs)) ++ (Char.ofNat 10 :: "ARGUMENTS: ".data)) ++
        jstr.data from by simp [List.append_assoc]]
    rw [← hL2, List.drop_left]
  have hext : extractJsonObject ("TOOL_CALL: " ++ name ++ "\nARGUMENTS: " ++ jstr)
      (12 + ncs.length + 12) = Option.some (PyVal.dict d, 12 + ncs.length + 12 + jstr.data.length) := by
    unfold extractJsonObject
    rw [show findCharFrom ("TOOL_CALL: " ++ name ++ "\nARGUMENTS: " ++ jstr).data '{'
        (12 + ncs.length + 12) = Option.some (12 + ncs.length + 12) from by
      unfold findCharFrom
      rw [hdrop2, hj]
      rw [show List.findIdx? (fun x => x = '{') ('{' :: j2) = Option.some 0 from by simp]]
    dsimp only
    rw [hdrop2, hbrace]
    dsimp only
    rw [List.take_length]
    rw [show String.mk jstr.data = jstr from rfl, hparse]
  unfold extractToolCalls extractToolCallsS1
  rw [hscan]
  simp only [List.map_cons, List.map_nil]
  rw [hdrop1, hrem, hargs (List.take 487 j2)]
  dsimp only
  rw [hext]
  rfl

/-- C5: for every LLM reply of the canonical form `TOOL_CALL: <name>` followed
by `ARGUMENTS: <JSON object>`, the text-protocol extractor returns the tool
call with that name and the parsed JSON arguments (first conjunct, universal);
brace matching respects string literals and backslash escapes, so nested
braces inside strings do not end the object (second and third conjuncts); the
repair step makes unquoted identifier values, single-quoted strings and
trailing commas parse (fourth through sixth conjuncts); and extracted calls
are deduplicated by name plus canonicalized (`sort_keys=True`) arguments
(last conjunct). -/
theorem extractToolCalls_spec :
    (∀ (name jstr : String) (d : List (String × PyVal)),
      name.data ≠ [] → name.data.all isWordChar = true →
      jstr.data.head? = Option.some '{' →
      braceLoop jstr.data 0 false false 0 = Option.some jstr.data.length →
      jsonLoads jstr = Option.some (PyVal.dict d) →
      findToolCallsGo ("\nARGUMENTS: " ++ jstr).data.length
        ("\nARGUMENTS: " ++ jstr).data = [] →
      extractToolCalls ("TOOL_CALL: " ++ name ++ "\nARGUMENTS: " ++ jstr) =
        Option.some [⟨"", name, d⟩]) ∧
    extractToolCalls "TOOL_CALL: fill\nARGUMENTS: \x7b\"selector\": \"#a\", \"value\": \"x\x7by\x7dz\"\x7d" =
      Option.some [⟨"", "fill", [("selector", PyVal.str "#a"), ("value", PyVal.str "x\x7by\x7dz")]⟩] ∧
    extractJsonObject "\x7b\"k\": \"a\\\"\x7db\"\x7d" 0 =
      Option.some (PyVal.dict [("k", PyVal.str "a\"\x7db")], 14) ∧
    extractJsonObject "\x7b\"a\": hello\x7d" 0 =
      Option.some (PyVal.dict [("a", PyVal.str "hello")], 12) ∧
    extractToolCalls "TOOL_CALL: click\nARGUMENTS: \x7b\x27selector\x27: \x27#go\x27\x7d" =
      Option.some [⟨"", "click", [("selector", PyVal.str "#go")]⟩] ∧
    extractJsonObject "\x7b\"a\": \"b\",\x7d" 0 =
      Option.some (PyVal.dict [("a", PyVal.str "b")], 11) ∧
    extractToolCalls "TOOL_CALL: click\nARGUMENTS: \x7b\"b\":2,\"a\":1\x7d\nTOOL_CALL: click\nARGUMENTS: \x7b\"a\": 1, \"b\": 2\x7d" =
      Option.some [⟨"", "click", [("b", PyVal.int 2), ("a", PyVal.int 1)]⟩] :=
  ⟨extractToolCalls_canonical, rfl, rfl, rfl, rfl, rfl, by
    set_option maxRecDepth 10000 in rfl⟩

/-- Witness for C5: the universal conjunct applied to the concrete reply `TOOL_CALL: press` / `ARGUMENTS: (key: Enter)`, with every hypothesis evaluated. -/
theorem extractToolCalls_spec_witness :
    (("press" : String).data ≠ [] ∧ ("press" : String).data.all isWordChar = true ∧
     ("\x7b\"key\": \"Enter\"\x7d" : String).data.head? = Option.some '{' ∧
     braceLoop ("\x7b\"key\": \"Enter\"\x7d" : String).data 0 false false 0 =
       Option.some ("\x7b\"key\": \"Enter\"\x7d" : String).data.length ∧
     jsonLoads "\x7b\"key\": \"Enter\"\x7d" =
       Option.some (PyVal.dict [("key", PyVal.str "Enter")]) ∧
     findToolCallsGo ("\nARGUMENTS: " ++ "\x7b\"key\": \"Enter\"\x7d").data.length
       ("\nARGUMENTS: " ++ "\x7b\"key\": \"Enter\"\x7d").data = []) ∧
    extractToolCalls ("TOOL_CALL: " ++ "press" ++ "\nARGUMENTS: " ++ "\x7b\"key\": \"Enter\"\x7d") =
      Option.some [⟨"", "press", [("key", PyVal.str "Enter")]⟩] :=
  ⟨⟨by decide, rfl, rfl, rfl, rfl, rfl⟩,
   extractToolCalls_spec.1 "press" "\x7b\"key\": \"Enter\"\x7d" [("key", PyVal.str "Enter")]
     (by decide) rfl rfl rfl rfl rfl⟩
